import Mathlib

/-!
Verification development for the jupiter-swap-v6-test-cli repository.

The repository is JavaScript glue code around the Jupiter v6 HTTP API and the
Solana JSON-RPC API.  This file gives a shallow embedding of the pure logic the
claims are about: JS numbers are modelled as `Int`/`Rat` (`Option` where `NaN`
can arise), JS strings as `String`, fallible steps as `Except String`, and the
external network as explicit oracle parameters.  Each definition is translated
from the corresponding source function; library primitives used by the code
(`parseInt`, `parseFloat`, `bs58.decode`) are modelled after their documented
semantics.
-/

/-! ### JavaScript primitive models -/

/-- Whitespace skipped by `parseInt` / `parseFloat`. -/
def jsWhitespace (c : Char) : Bool :=
  c = ' ' || c = '\t' || c = '\n' || c = '\r'

/-- Numeric value of a decimal digit character. -/
def digitVal (c : Char) : ℕ := c.toNat - 48

/-- Value of a list of decimal digit characters, most significant first. -/
def decDigitsNum (ds : List Char) : ℕ :=
  ds.foldl (fun a c => a * 10 + digitVal c) 0

/-- Hexadecimal digit test (for `parseInt`'s `0x` autodetection). -/
def hexDigit (c : Char) : Bool :=
  c.isDigit || (decide (97 ≤ c.toNat) && decide (c.toNat ≤ 102))
    || (decide (65 ≤ c.toNat) && decide (c.toNat ≤ 70))

/-- Numeric value of a hexadecimal digit character. -/
def hexDigitVal (c : Char) : ℕ :=
  if c.isDigit then c.toNat - 48
  else if decide (97 ≤ c.toNat) then c.toNat - 87
  else c.toNat - 55

/-- Value of a list of hexadecimal digit characters, most significant first. -/
def hexDigitsNum (ds : List Char) : ℕ :=
  ds.foldl (fun a c => a * 16 + hexDigitVal c) 0

/-- Model of JavaScript `parseInt(s)` with no radix argument: skip leading
whitespace, optional sign, `0x`/`0X` prefix selects base 16, otherwise the
longest leading run of decimal digits is parsed; `none` models `NaN`. -/
def jsParseInt (s : String) : Option ℤ :=
  let cs := s.data.dropWhile jsWhitespace
  let signed : ℤ × List Char :=
    match cs with
    | '-' :: r => (-1, r)
    | '+' :: r => (1, r)
    | r => (1, r)
  let sign := signed.1
  let body := signed.2
  match body with
  | '0' :: x :: r =>
    if x = 'x' || x = 'X' then
      let ds := r.takeWhile hexDigit
      if ds.isEmpty then none else some (sign * (hexDigitsNum ds : ℤ))
    else
      let ds := (('0' :: x :: r).takeWhile Char.isDigit)
      some (sign * (decDigitsNum ds : ℤ))
  | _ =>
    let ds := body.takeWhile Char.isDigit
    if ds.isEmpty then none else some (sign * (decDigitsNum ds : ℤ))

/-- Model of JavaScript `parseFloat(s)`: sign, integer digits, optional
fraction, optional exponent; `none` models `NaN`.  The decimal value
`sign * (int.frac) * 10^expo` is assembled with `mkRat` (the exact rational
`numerator / denominator`). -/
def jsParseFloat (s : String) : Option ℚ :=
  let cs := s.data.dropWhile jsWhitespace
  let signed : ℤ × List Char :=
    match cs with
    | '-' :: r => (-1, r)
    | '+' :: r => (1, r)
    | r => (1, r)
  let sign := signed.1
  let body := signed.2
  let intDs := body.takeWhile Char.isDigit
  let rest1 := body.dropWhile Char.isDigit
  let fracSplit : List Char × List Char :=
    match rest1 with
    | '.' :: r => (r.takeWhile Char.isDigit, r.dropWhile Char.isDigit)
    | r => ([], r)
  let fracDs := fracSplit.1
  let rest2 := fracSplit.2
  if intDs.isEmpty && fracDs.isEmpty then none
  else
    let mantissaNum : ℕ := decDigitsNum intDs * 10 ^ fracDs.length + decDigitsNum fracDs
    let expo : ℤ :=
      match rest2 with
      | 'e' :: r => jsExponent r
      | 'E' :: r => jsExponent r
      | _ => 0
    some (if 0 ≤ expo then
        mkRat (sign * mantissaNum * 10 ^ expo.toNat) (10 ^ fracDs.length)
      else
        mkRat (sign * mantissaNum) (10 ^ fracDs.length * 10 ^ (-expo).toNat))
where
  /-- Exponent part after `e`/`E`; an empty exponent contributes nothing. -/
  jsExponent (r : List Char) : ℤ :=
    let signed : ℤ × List Char :=
      match r with
      | '-' :: t => (-1, t)
      | '+' :: t => (1, t)
      | t => (1, t)
    let ds := signed.2.takeWhile Char.isDigit
    if ds.isEmpty then 0 else signed.1 * (decDigitsNum ds : ℤ)

/-! ### QuoteService: adaptive slippage (src/services/QuoteService.js) -/

/-- `this.slippageConfig` of `QuoteService` (values in basis points). -/
structure SlippageConfig where
  base : ℤ
  min : ℤ
  max : ℤ
  priceImpactMultiplier : ℚ
  volatilityFactor : ℚ
deriving DecidableEq

/-- Default configuration from the `QuoteService` constructor. -/
def defaultSlippageConfig : SlippageConfig :=
  { base := 100, min := 50, max := 500, priceImpactMultiplier := 2, volatilityFactor := mkRat 3 2 }

/-- The object returned by `QuoteService.getRouteInfo` (the `route` field is
absent in the direct-route branch, hence `Option`). -/
structure RouteInfo where
  exchanges : List String
  hops : ℕ
  complexity : String
  route : Option String
deriving DecidableEq

/-- The `volatileDexes` list inside `calculateAdaptiveSlippage`. -/
def volatileDexes : List String := ["Serum", "OpenBook", "Raydium CLMM"]

/-- `QuoteService.calculateAdaptiveSlippage(priceImpact, routeInfo)`.
`priceImpact` is a JS number; `none` models `NaN` (every comparison with `NaN`
is false, so neither additive branch fires). -/
def calculateAdaptiveSlippage (cfg : SlippageConfig) (priceImpact : Option ℚ)
    (routeInfo : RouteInfo) : ℤ :=
  let s1 : ℤ :=
    match priceImpact with
    | some v => if v > mkRat 1 2 then cfg.base + ⌊v * cfg.priceImpactMultiplier * 100⌋ else cfg.base
    | none => cfg.base
  let s2 : ℤ := if 1 < routeInfo.hops then s1 + ((routeInfo.hops : ℤ) - 1) * 25 else s1
  let s3 : ℤ :=
    if routeInfo.exchanges.any (fun e => volatileDexes.contains e) then
      ⌊(s2 : ℚ) * cfg.volatilityFactor⌋
    else s2
  max cfg.min (min cfg.max s3)

/-- C1: for every price-impact value and every route-info (any hop count and
any exchange list), `QuoteService.calculateAdaptiveSlippage` returns a value
inside the closed interval `[minSlippage, maxSlippage]` of the service's
slippage configuration (stated for any configuration whose bounds form an
interval, as the default one does). -/
theorem calculateAdaptiveSlippage_clamped (cfg : SlippageConfig)
    (h : cfg.min ≤ cfg.max) (priceImpact : Option ℚ) (routeInfo : RouteInfo) :
    cfg.min ≤ calculateAdaptiveSlippage cfg priceImpact routeInfo ∧
      calculateAdaptiveSlippage cfg priceImpact routeInfo ≤ cfg.max := by
  unfold calculateAdaptiveSlippage
  exact ⟨le_max_left _ _, max_le h (min_le_left _ _)⟩

/-- Witness for C1 at the default configuration on a concrete volatile
three-hop route with 2% price impact. -/
theorem calculateAdaptiveSlippage_clamped_witness :
    defaultSlippageConfig.min ≤ defaultSlippageConfig.max ∧
      (defaultSlippageConfig.min ≤
          calculateAdaptiveSlippage defaultSlippageConfig (some 2)
            ⟨["Orca", "Raydium CLMM", "Meteora"], 3, "Complex", some "r"⟩ ∧
        calculateAdaptiveSlippage defaultSlippageConfig (some 2)
            ⟨["Orca", "Raydium CLMM", "Meteora"], 3, "Complex", some "r"⟩ ≤
          defaultSlippageConfig.max) :=
  ⟨by decide,
    calculateAdaptiveSlippage_clamped defaultSlippageConfig (by decide) (some 2)
      ⟨["Orca", "Raydium CLMM", "Meteora"], 3, "Complex", some "r"⟩⟩

/-! ### base58 and Solana key validation (library models) -/

/-- Big-endian byte expansion, fuelled for kernel reduction (`fuel ≥ n`
suffices since each step divides by 256). -/
def natToBytesAux (fuel : ℕ) (n : ℕ) : List ℕ :=
  match fuel with
  | 0 => []
  | fuel + 1 => if n = 0 then [] else natToBytesAux fuel (n / 256) ++ [n % 256]

/-- Big-endian byte expansion of a natural number (empty for `0`). -/
def natToBytes (n : ℕ) : List ℕ := natToBytesAux n n

/-- The Bitcoin base58 alphabet used by `bs58`. -/
def base58Chars : List Char :=
  "123456789ABCDEFGHJKLMNPQRSTUVWXYZabcdefghijkmnopqrstuvwxyz".data

/-- Index of a character in the base58 alphabet, `none` if not in it. -/
def base58Val (c : Char) : Option ℕ :=
  let i := base58Chars.indexOf c
  if i < 58 then some i else none

/-- Model of `bs58.decode`: fails on any non-alphabet character, otherwise
produces one zero byte per leading `'1'` followed by the big-endian bytes of
the accumulated value. -/
def bs58Decode (s : String) : Option (List ℕ) :=
  (s.data.foldl (fun acc c => acc.bind fun n => (base58Val c).map fun d => n * 58 + d)
      (some 0)).map fun n =>
    ((s.data.takeWhile (· = '1')).map fun _ => 0) ++ natToBytes n

/-- Message of the error thrown by the modelled `bs58.decode`. -/
def bs58ErrorMessage : String := "Non-base58 character"

/-! ### SHA-512 and ed25519 public-key derivation

`Keypair.fromSecretKey` of @solana/web3.js (^1.87.6, pinned by the repo)
validates a 64-byte secret key by deriving the ed25519 public key of the
first 32 bytes and comparing it with the last 32, throwing
`provided secretKey is invalid` on mismatch.  The derivation (RFC 8032:
SHA-512 of the seed, scalar clamping, base-point multiplication on the
twisted Edwards curve, point encoding) is implemented executably below so
that the check can be modelled and evaluated faithfully. -/

/-- Round constants of SHA-512 (FIPS 180-4): the first 64 bits of the
fractional parts of the cube roots of the first eighty primes. -/
def sha512K : List ℕ := [
  4794697086780616226, 8158064640168781261, 13096744586834688815, 16840607885511220156,
  4131703408338449720, 6480981068601479193, 10538285296894168987, 12329834152419229976,
  15566598209576043074, 1334009975649890238, 2608012711638119052, 6128411473006802146,
  8268148722764581231, 9286055187155687089, 11230858885718282805, 13951009754708518548,
  16472876342353939154, 17275323862435702243, 1135362057144423861, 2597628984639134821,
  3308224258029322869, 5365058923640841347, 6679025012923562964, 8573033837759648693,
  10970295158949994411, 12119686244451234320, 12683024718118986047, 13788192230050041572,
  14330467153632333762, 15395433587784984357, 489312712824947311, 1452737877330783856,
  2861767655752347644, 3322285676063803686, 5560940570517711597, 5996557281743188959,
  7280758554555802590, 8532644243296465576, 9350256976987008742, 10552545826968843579,
  11727347734174303076, 12113106623233404929, 14000437183269869457, 14369950271660146224,
  15101387698204529176, 15463397548674623760, 17586052441742319658, 1182934255886127544,
  1847814050463011016, 2177327727835720531, 2830643537854262169, 3796741975233480872,
  4115178125766777443, 5681478168544905931, 6601373596472566643, 7507060721942968483,
  8399075790359081724, 8693463985226723168, 9568029438360202098, 10144078919501101548,
  10430055236837252648, 11840083180663258601, 13761210420658862357, 14299343276471374635,
  14566680578165727644, 15097957966210449927, 16922976911328602910, 17689382322260857208,
  500013540394364858, 748580250866718886, 1242879168328830382, 1977374033974150939,
  2944078676154940804, 3659926193048069267, 4368137639120453308, 4836135668995329356,
  5532061633213252278, 6448918945643986474, 6902733635092675308, 7801388544844847127]

/-- Initial hash values of SHA-512: the first 64 bits of the fractional
parts of the square roots of the first eight primes. -/
def sha512Init : List ℕ := [
  7640891576956012808, 13503953896175478587, 4354685564936845355, 11912009170470909681,
  5840696475078001361, 11170449401992604703, 2270897969802886507, 6620516959819538809]

/-- Truncation to a 64-bit word. -/
def wrap64 (n : ℕ) : ℕ := n % 18446744073709551616

/-- 64-bit right rotation (arithmetic form). -/
def rotr64 (x n : ℕ) : ℕ := wrap64 (x / 2 ^ n + x % 2 ^ n * 2 ^ (64 - n))

/-- SHA-512 big sigma-0. -/
def bsig0 (x : ℕ) : ℕ := rotr64 x 28 ^^^ rotr64 x 34 ^^^ rotr64 x 39

/-- SHA-512 big sigma-1. -/
def bsig1 (x : ℕ) : ℕ := rotr64 x 14 ^^^ rotr64 x 18 ^^^ rotr64 x 41

/-- SHA-512 small sigma-0. -/
def ssig0 (x : ℕ) : ℕ := rotr64 x 1 ^^^ rotr64 x 8 ^^^ x / 2 ^ 7

/-- SHA-512 small sigma-1. -/
def ssig1 (x : ℕ) : ℕ := rotr64 x 19 ^^^ rotr64 x 61 ^^^ x / 2 ^ 6

/-- SHA-512 choice function. -/
def chF (e f g : ℕ) : ℕ := e &&& f ^^^ (e ^^^ 18446744073709551615) &&& g

/-- SHA-512 majority function. -/
def majF (a b c : ℕ) : ℕ := a &&& b ^^^ a &&& c ^^^ b &&& c

/-- Big-endian 8-byte chunks to 64-bit words. -/
def bytesToWordsBE : List ℕ → List ℕ
  | b0 :: b1 :: b2 :: b3 :: b4 :: b5 :: b6 :: b7 :: rest =>
    (((((((b0 * 256 + b1) * 256 + b2) * 256 + b3) * 256 + b4) * 256 + b5) * 256 + b6) * 256
        + b7) :: bytesToWordsBE rest
  | _ => []

/-- Big-endian bytes of one 64-bit word. -/
def wordToBytesBE (w : ℕ) : List ℕ :=
  [w / 2 ^ 56 % 256, w / 2 ^ 48 % 256, w / 2 ^ 40 % 256, w / 2 ^ 32 % 256,
    w / 2 ^ 24 % 256, w / 2 ^ 16 % 256, w / 2 ^ 8 % 256, w % 256]

/-- Message-schedule extension (fuelled; extends the 16 block words to 80). -/
def sha512Schedule : ℕ → List ℕ → List ℕ
  | 0, ws => ws
  | fuel + 1, ws =>
    sha512Schedule fuel (ws ++ [wrap64 (ssig1 (ws.getD (ws.length - 2) 0)
      + ws.getD (ws.length - 7) 0 + ssig0 (ws.getD (ws.length - 15) 0)
      + ws.getD (ws.length - 16) 0)])

/-- One SHA-512 compression round on the eight-word working state. -/
def sha512Round (k w : ℕ) (st : List ℕ) : List ℕ :=
  match st with
  | [a, b, c, d, e, f, g, h] =>
    let t1 := wrap64 (h + bsig1 e + chF e f g + k + w)
    let t2 := wrap64 (bsig0 a + majF a b c)
    [wrap64 (t1 + t2), a, b, c, wrap64 (d + t1), e, f, g]
  | st => st

/-- SHA-512 compression of one 16-word block into the hash state. -/
def sha512Compress (h : List ℕ) (block : List ℕ) : List ℕ :=
  let ws := sha512Schedule 64 block
  let st := (sha512K.zip ws).foldl (fun st kw => sha512Round kw.1 kw.2 st) h
  (h.zip st).map fun hs => wrap64 (hs.1 + hs.2)

/-- Big-endian 16-byte length field of the padding. -/
def sha512LenBytes (bits : ℕ) : List ℕ :=
  (List.range 16).map fun i => bits / 2 ^ (8 * (15 - i)) % 256

/-- SHA-512 padding: `0x80`, zeros, and the 128-bit message length. -/
def sha512Pad (msg : List ℕ) : List ℕ :=
  msg ++ [128] ++ List.replicate ((128 - (msg.length + 17) % 128) % 128) 0
    ++ sha512LenBytes (msg.length * 8)

/-- Fold the compression over consecutive 128-byte blocks (fuelled). -/
def sha512Blocks : ℕ → List ℕ → List ℕ → List ℕ
  | 0, _, h => h
  | fuel + 1, bytes, h =>
    if bytes.isEmpty then h
    else sha512Blocks fuel (bytes.drop 128) (sha512Compress h (bytesToWordsBE (bytes.take 128)))

/-- SHA-512 of a byte list. -/
def sha512 (msg : List ℕ) : List ℕ :=
  let padded := sha512Pad msg
  ((sha512Blocks (padded.length / 128) padded sha512Init).map wordToBytesBE).flatten

set_option maxRecDepth 10000 in
/-- The SHA-512 implementation reproduces the reference digest of "abc". -/
theorem sha512_abc :
    sha512 [97, 98, 99] = [221, 175, 53, 161, 147, 97, 122, 186, 204, 65, 115, 73, 174, 32, 65, 49, 18, 230, 250, 78, 137, 169, 126, 162, 10, 158, 238, 230, 75, 85, 211, 154, 33, 146, 153, 42, 39, 79, 193, 168, 54, 186, 60, 35, 163, 254, 235, 189, 69, 77, 68, 35, 100, 60, 232, 14, 42, 154, 201, 79, 165, 76, 164, 159] := by decide


/-- The ed25519 field prime `2^255 - 19`. -/
def edP : ℕ := 57896044618658097711785492504343953926634992332820282019728792003956564819949

/-- Twice the ed25519 curve constant `d`, reduced mod `edP`. -/
def edD2 : ℕ := 16295367250680780974490674513165176452449235426866156013048779062215315747161

/-- Field addition. -/
def fadd (a b : ℕ) : ℕ := (a + b) % edP

/-- Field subtraction (inputs below `edP`). -/
def fsub (a b : ℕ) : ℕ := (a + edP - b) % edP

/-- Field multiplication. -/
def fmul (a b : ℕ) : ℕ := a * b % edP

/-- A curve point in extended homogeneous coordinates. -/
structure EdPoint where
  X : ℕ
  Y : ℕ
  Z : ℕ
  T : ℕ
deriving DecidableEq

/-- Unified twisted-Edwards addition (RFC 8032 section 5.1.4). -/
def edAdd (P Q : EdPoint) : EdPoint :=
  let A := fmul (fsub P.Y P.X) (fsub Q.Y Q.X)
  let B := fmul (fadd P.Y P.X) (fadd Q.Y Q.X)
  let C := fmul (fmul P.T edD2) Q.T
  let D := fmul (fadd P.Z P.Z) Q.Z
  ⟨fmul (fsub B A) (fsub D C), fmul (fadd D C) (fadd B A),
    fmul (fsub D C) (fadd D C), fmul (fsub B A) (fadd B A)⟩

/-- The neutral element. -/
def edZero : EdPoint := ⟨0, 1, 1, 0⟩

/-- The ed25519 base point. -/
def edBase : EdPoint :=
  ⟨15112221349535400772501151409588531511454012693041857206046113283949847762202,
    46316835694926478169428394003475163141307993866256225615783033603165251855960, 1,
    fmul 15112221349535400772501151409588531511454012693041857206046113283949847762202 46316835694926478169428394003475163141307993866256225615783033603165251855960⟩

/-- Binary double-and-add scalar multiplication (fuelled). -/
def edScalarMul : ℕ → ℕ → EdPoint → EdPoint → EdPoint
  | 0, _, _, acc => acc
  | fuel + 1, k, base, acc =>
    if k = 0 then acc
    else
      edScalarMul fuel (k / 2) (edAdd base base)
        (if k % 2 = 1 then edAdd acc base else acc)

/-- Modular exponentiation by squaring (fuelled). -/
def powMod : ℕ → ℕ → ℕ → ℕ → ℕ
  | 0, _, _, _ => 1
  | fuel + 1, b, e, m =>
    if e = 0 then 1 % m
    else
      let r := powMod fuel (b * b % m) (e / 2) m
      if e % 2 = 1 then r * b % m else r

/-- Little-endian byte-list value. -/
def bytesToNatLE : List ℕ → ℕ
  | [] => 0
  | b :: rest => b + 256 * bytesToNatLE rest

/-- 32 little-endian bytes of a value below `2^256`. -/
def natToBytesLE32 (n : ℕ) : List ℕ :=
  (List.range 32).map fun i => n / 256 ^ i % 256

/-- RFC 8032 scalar clamping of the first 32 hash bytes. -/
def clampScalar (h32 : List ℕ) : ℕ :=
  bytesToNatLE h32 % 2 ^ 254 / 8 * 8 + 2 ^ 254

/-- ed25519 public-key derivation (RFC 8032): hash the 32-byte seed with
SHA-512, clamp, multiply the base point, encode `y` with the sign bit of
`x`. -/
def ed25519Pub (seed : List ℕ) : List ℕ :=
  let h := sha512 (seed.take 32)
  let a := clampScalar (h.take 32)
  let A := edScalarMul 256 a edBase edZero
  let zinv := powMod 300 A.Z (edP - 2) edP
  natToBytesLE32 (fmul A.Y zinv + fmul A.X zinv % 2 * 2 ^ 255)

set_option maxRecDepth 20000 in
/-- The derivation reproduces the canonical public key of the all-zero seed
(the Solana address 4zvwRjXUKGfvwnParsHAS3HuSVzV5cA4McphgmoCtajS). -/
theorem ed25519Pub_zero_seed :
    ed25519Pub (List.replicate 32 0) = [59, 106, 39, 188, 206, 182, 164, 45, 98, 163, 168, 208, 42, 111, 13, 115, 101, 50, 21, 119, 29, 226, 67, 166, 58, 192, 72, 161, 139, 89, 218, 41] := by decide


/-- The consistency check of `Keypair.fromSecretKey` on a 64-byte secret key:
the last 32 bytes must be the ed25519 public key of the first 32. -/
def secretKeyValid (bytes : List ℕ) : Bool :=
  bytes.drop 32 == ed25519Pub (bytes.take 32)

/-- The private-key try-block shared by `validateEnvironment` (src/core-swap.js)
and the `POST /swap` handler: a decode failure, a byte length other than 64, or
`Keypair.fromSecretKey`'s keypair-consistency failure yields the message of the
caught error. -/
def privateKeyError (pk : String) : Option String :=
  match bs58Decode pk with
  | none => some bs58ErrorMessage
  | some bytes =>
    if bytes.length ≠ 64 then some "Private key must be 64 bytes"
    else if ¬secretKeyValid bytes then some "provided secretKey is invalid"
    else none

/-- `new PublicKey(s)` succeeds iff the base58 decoding yields exactly 32 bytes. -/
def isValidPublicKey (s : String) : Bool :=
  match bs58Decode s with
  | some bytes => bytes.length == 32
  | none => false

/-! ### validateEnvironment (src/core-swap.js) -/

/-- The three required environment variables; `""` models an unset variable
(both are falsy in the `!process.env[key]` check). -/
structure Env where
  PRIVATE_KEY : String
  FEE_RECIPIENT : String
  FEE_BASIS_POINTS : String
deriving DecidableEq

/-- `required.filter(key => !process.env[key])`. -/
def envMissing (env : Env) : List String :=
  (if env.PRIVATE_KEY = "" then ["PRIVATE_KEY"] else []) ++
    (if env.FEE_RECIPIENT = "" then ["FEE_RECIPIENT"] else []) ++
      (if env.FEE_BASIS_POINTS = "" then ["FEE_BASIS_POINTS"] else [])

/-- `CoreSwap.validateEnvironment` (src/core-swap.js lines 43-78): missing
variables, private key, fee recipient and fee basis points, in that order. -/
def validateEnvironment (env : Env) : Except String Unit :=
  if ¬(envMissing env).isEmpty then
    .error ("Missing environment variables: " ++ String.intercalate ", " (envMissing env))
  else
    match privateKeyError env.PRIVATE_KEY with
    | some m => .error ("Invalid private key: " ++ m)
    | none =>
      if ¬isValidPublicKey env.FEE_RECIPIENT then
        .error "Invalid fee recipient address"
      else
        match jsParseInt env.FEE_BASIS_POINTS with
        | none => .error "Fee basis points must be between 0 and 10000"
        | some feeBps =>
          if feeBps < 0 ∨ 10000 < feeBps then
            .error "Fee basis points must be between 0 and 10000"
          else .ok ()

/-! ### Priority fees (src/test-priority-fees.js) -/

def DEFAULT_PRIORITY_FEE_MICRO_LAMPORTS : ℤ := 1000

def DEFAULT_MAX_PRIORITY_FEE_MICRO_LAMPORTS : ℤ := 50000

/-- Environment variables read by the priority-fee demo; `""` models unset. -/
structure FeeEnv where
  MAX_PRIORITY_FEE_MICRO_LAMPORTS : String
  FIXED_PRIORITY_FEE_MICRO_LAMPORTS : String
  DYNAMIC_PRIORITY_FEE_MULTIPLIER : String
deriving DecidableEq

/-- JS `parseInt(s) || d`: both `NaN` and `0` are falsy and fall back to `d`. -/
def parseIntOr (s : String) (d : ℤ) : ℤ :=
  match jsParseInt s with
  | some n => if n = 0 then d else n
  | none => d

/-- JS `parseFloat(s) || d`. -/
def parseFloatOr (s : String) (d : ℚ) : ℚ :=
  match jsParseFloat s with
  | some q => if q = 0 then d else q
  | none => d

/-- Ascending insertion used to model `fees.sort((a, b) => a - b)`. -/
def insertAsc (x : ℤ) : List ℤ → List ℤ
  | [] => [x]
  | y :: ys => if x ≤ y then x :: y :: ys else y :: insertAsc x ys

/-- Ascending sort modelling `fees.sort((a, b) => a - b)`. -/
def sortAsc : List ℤ → List ℤ
  | [] => []
  | x :: xs => insertAsc x (sortAsc xs)

/-- `fees[Math.floor(fees.length * num/den)] || 0`: the indices used are always
in range, and for a stored `0` the `|| 0` fallback coincides with the value. -/
def percentile (fees : List ℤ) (num den : ℕ) : ℤ :=
  fees.getD (fees.length * num / den) 0

/-- `getFixedPriorityFee`. -/
def getFixedPriorityFee (env : FeeEnv) : ℤ :=
  parseIntOr env.FIXED_PRIORITY_FEE_MICRO_LAMPORTS DEFAULT_PRIORITY_FEE_MICRO_LAMPORTS

/-- `getDynamicPriorityFee`; the oracle gives the outcome of
`getRecentPrioritizationFees` (an RPC failure is caught and falls back to the
default). -/
def getDynamicPriorityFee (env : FeeEnv) (recentFees : Except String (List ℤ)) : ℤ :=
  match recentFees with
  | .error _ => DEFAULT_PRIORITY_FEE_MICRO_LAMPORTS
  | .ok l =>
    if l.isEmpty then DEFAULT_PRIORITY_FEE_MICRO_LAMPORTS
    else
      let fees := sortAsc l
      let p75 := percentile fees 3 4
      let multiplier := parseFloatOr env.DYNAMIC_PRIORITY_FEE_MULTIPLIER (mkRat 6 5)
      let dynamicFee := ⌈(p75 : ℚ) * multiplier⌉
      max dynamicFee DEFAULT_PRIORITY_FEE_MICRO_LAMPORTS

/-- `getHeliusPriorityFee`: the demo's placeholder returns the default fee on
both the configured and the unconfigured path. -/
def getHeliusPriorityFee : ℤ := DEFAULT_PRIORITY_FEE_MICRO_LAMPORTS

/-- `calculatePriorityFee(mode)` (src/test-priority-fees.js lines 49-86):
mode-specific fee, then the max-fee cap. -/
def calculatePriorityFee (env : FeeEnv) (mode : String)
    (recentFees : Except String (List ℤ)) : ℤ :=
  let maxFee := parseIntOr env.MAX_PRIORITY_FEE_MICRO_LAMPORTS
    DEFAULT_MAX_PRIORITY_FEE_MICRO_LAMPORTS
  let priorityFee :=
    if mode = "fixed" then getFixedPriorityFee env
    else if mode = "dynamic" then getDynamicPriorityFee env recentFees
    else if mode = "helius" then getHeliusPriorityFee
    else DEFAULT_PRIORITY_FEE_MICRO_LAMPORTS
  if priorityFee > maxFee then maxFee else priorityFee

/-- C9: for every priority-fee mode and configuration, `calculatePriorityFee`
never exceeds the effective `MAX_PRIORITY_FEE_MICRO_LAMPORTS` cap, whose
default (unset or unparsable variable) is 50000. -/
theorem calculatePriorityFee_le_cap :
    (∀ (env : FeeEnv) (mode : String) (recentFees : Except String (List ℤ)),
        calculatePriorityFee env mode recentFees ≤
          parseIntOr env.MAX_PRIORITY_FEE_MICRO_LAMPORTS
            DEFAULT_MAX_PRIORITY_FEE_MICRO_LAMPORTS) ∧
      parseIntOr "" DEFAULT_MAX_PRIORITY_FEE_MICRO_LAMPORTS = 50000 := by
  constructor
  · intro env mode recentFees
    unfold calculatePriorityFee
    dsimp only
    split <;> omega
  · decide

/-! ### QuoteService quotes: raw quote shape, enhancement, retry, cache
(src/services/QuoteService.js) -/

/-- `step.swapInfo` of a Jupiter route-plan step. -/
structure SwapInfo where
  label : Option String
  dexLabel : Option String
deriving DecidableEq

/-- One step of `quote.routePlan`. -/
structure RouteStep where
  swapInfo : Option SwapInfo
deriving DecidableEq

/-- `quote.platformFee`. -/
structure PlatformFee where
  amount : Option String
deriving DecidableEq

/-- The raw JSON quote returned by the Jupiter quote API (the fields the code
reads); `none` models an absent field. -/
structure QuoteResp where
  outAmount : Option String
  priceImpactPct : Option String
  routePlan : Option (List RouteStep)
  platformFee : Option PlatformFee
deriving DecidableEq

/-- JS truthiness of a possibly absent string (`undefined` and `""` are falsy). -/
def truthyOptStr : Option String → Bool
  | some s => s != ""
  | none => false

/-- JS `a || d` for a possibly absent string. -/
def strOr (a : Option String) (d : String) : String :=
  match a with
  | some s => if s = "" then d else s
  | none => d

/-- `QuoteService.getRouteInfo(quote)`. -/
def getRouteInfo (quote : QuoteResp) : RouteInfo :=
  match quote.routePlan with
  | none => ⟨["Direct"], 1, "Simple", none⟩
  | some plan =>
    if plan.isEmpty then ⟨["Direct"], 1, "Simple", none⟩
    else
      let exchanges := plan.map fun step =>
        strOr (step.swapInfo.bind SwapInfo.label)
          (strOr (step.swapInfo.bind SwapInfo.dexLabel) "Unknown")
      let hops := plan.length
      let complexity := if 2 < hops then "Complex" else if 1 < hops then "Moderate" else "Simple"
      ⟨exchanges, hops, complexity, some (String.intercalate " → " exchanges)⟩

/-- The fee estimate object of `QuoteService.estimateFees`; JS numbers that can
be `NaN` are `Option ℤ`. -/
structure Fees where
  platformFee : Option ℤ
  jupiterFee : Option ℤ
  totalFeeAmount : Option ℤ
deriving DecidableEq

/-- `NaN`-propagating addition of JS numbers. -/
def jsNumAdd (a b : Option ℤ) : Option ℤ :=
  match a, b with
  | some x, some y => some (x + y)
  | _, _ => none

/-- `parseInt` applied to a possibly absent string (`parseInt(undefined)` is `NaN`). -/
def jsParseIntOpt : Option String → Option ℤ
  | some s => jsParseInt s
  | none => none

/-- `QuoteService.estimateFees(quote)`; the float constant `0.0001` is modelled
by the exact rational `1/10000`. -/
def estimateFees (quote : QuoteResp) : Fees :=
  let platformFee : Option ℤ :=
    match quote.platformFee with
    | none => some 0
    | some pf =>
      match pf.amount with
      | none => some 0
      | some s => if s = "" then some 0 else jsParseInt s
  let outputAmount : Option ℤ := jsParseIntOpt quote.outAmount
  let jupiterFee : Option ℤ := outputAmount.map fun o => ⌊mkRat o 10000⌋
  { platformFee := platformFee, jupiterFee := jupiterFee,
    totalFeeAmount := jsNumAdd platformFee jupiterFee }

/-- `enhancedQuote.metadata`. -/
structure QuoteMetadata where
  timestamp : ℕ
  inputAmount : ℕ
  outputAmount : Option ℤ
  routeInfo : RouteInfo
  priceImpact : Option ℚ
  slippageUsed : ℤ
  estimatedFees : Fees
deriving DecidableEq

/-- The enhanced quote built by `QuoteService.enhanceQuote` (the raw quote
spread plus metadata and a slippage recommendation). -/
structure EnhancedQuote where
  quote : QuoteResp
  metadata : QuoteMetadata
  recommendedSlippage : ℤ
deriving DecidableEq

/-- The five `getQuote` parameters that enter the cache key.  The remaining
parameters (`platformFeeBps`, `feeAccount`, `excludeDexes`, `maxAccounts`) only
shape the HTTP request, which the oracle answers; `slippageBps` is after the
destructuring default `this.slippageConfig.base`. -/
structure QuoteParams where
  inputMint : String
  outputMint : String
  amount : ℕ
  slippageBps : ℤ
  onlyDirectRoutes : Bool
deriving DecidableEq

/-- `QuoteService.enhanceQuote(quote, params)` at time `now`. -/
def enhanceQuote (cfg : SlippageConfig) (quote : QuoteResp) (p : QuoteParams)
    (now : ℕ) : EnhancedQuote :=
  let metadata : QuoteMetadata :=
    { timestamp := now
      inputAmount := p.amount
      outputAmount := jsParseIntOpt quote.outAmount
      routeInfo := getRouteInfo quote
      priceImpact :=
        match quote.priceImpactPct with
        | some s => if s = "" then some 0 else jsParseFloat s
        | none => some 0
      slippageUsed := if p.slippageBps = 0 then cfg.base else p.slippageBps
      estimatedFees := estimateFees quote }
  { quote := quote, metadata := metadata,
    recommendedSlippage :=
      calculateAdaptiveSlippage cfg metadata.priceImpact metadata.routeInfo }

/-- A failed `axios` call: its `message` and the optional
`error.response.data.error` body. -/
structure AxiosError where
  message : String
  responseError : Option String
deriving DecidableEq

/-- Outcome of one `axios.get` attempt on the quote API. -/
abbrev QuoteAttempt := Except AxiosError QuoteResp

/-- The retry loop of `QuoteService.getQuote` over (attempt index, remaining
attempts).  Result: the quote on success, the error of the last failing
attempt, the number of attempts issued, and the backoff delays slept between
consecutive attempts (in ms). -/
def quoteRetryLoop (world : ℕ → QuoteAttempt) :
    ℕ → ℕ → Option QuoteResp × Option AxiosError × ℕ × List ℕ
  | _, 0 => (none, none, 0, [])
  | attempt, remaining + 1 =>
    match world attempt with
    | .ok q => (some q, none, 1, [])
    | .error e =>
      if remaining = 0 then (none, some e, 1, [])
      else
        let r := quoteRetryLoop world (attempt + 1) remaining
        (r.1, some ((r.2.1).getD e), r.2.2.1 + 1, 2 ^ attempt * 1000 :: r.2.2.2)

/-- The outer catch of `QuoteService.getQuote`: a Jupiter error body takes
precedence, otherwise the message is wrapped. -/
def wrapQuoteError (e : AxiosError) : String :=
  match e.responseError with
  | some api => "Jupiter API error: " ++ api
  | none => "Quote request failed: " ++ e.message

/-- One entry of `this.cache`. -/
structure CacheEntry where
  value : EnhancedQuote
  timestamp : ℕ
deriving DecidableEq

/-- `this.cache` as an association list (JS `Map` in insertion order). -/
abbrev QuoteCache := List (String × CacheEntry)

/-- `Map.get` on the modelled cache. -/
def cacheLookup (c : QuoteCache) (k : String) : Option CacheEntry :=
  (c.find? fun p => p.1 == k).map fun p => p.2

/-- `Map.set` on the modelled cache. -/
def cacheSet (c : QuoteCache) (k : String) (v : CacheEntry) : QuoteCache :=
  if c.any fun p => p.1 == k then
    c.map fun p => if p.1 == k then (k, v) else p
  else c ++ [(k, v)]

/-- Decimal digits, fuelled for kernel reduction (`fuel ≥ n` suffices). -/
def natDigitsAux (fuel : ℕ) (n : ℕ) : List Char :=
  match fuel with
  | 0 => [Char.ofNat (48 + n)]
  | fuel + 1 =>
    if n < 10 then [Char.ofNat (48 + n)]
    else natDigitsAux fuel (n / 10) ++ [Char.ofNat (48 + n % 10)]

/-- Decimal digits of a natural number (model of JS number-to-string for the
template-literal interpolations). -/
def natDigits (n : ℕ) : List Char := natDigitsAux n n

/-- JS decimal rendering of a natural number. -/
def natStr (n : ℕ) : String := ⟨natDigits n⟩

/-- JS decimal rendering of an integer. -/
def intStr (i : ℤ) : String :=
  if i < 0 then "-" ++ natStr i.natAbs else natStr i.natAbs

/-- JS rendering of a boolean. -/
def boolStr (b : Bool) : String := if b then "true" else "false"

/-- The template-literal cache key
`quote_<inputMint>_<outputMint>_<amount>_<slippageBps>_<onlyDirectRoutes>`. -/
def cacheKey (p : QuoteParams) : String :=
  "quote_" ++ p.inputMint ++ "_" ++ p.outputMint ++ "_" ++ natStr p.amount ++ "_"
    ++ intStr p.slippageBps ++ "_" ++ boolStr p.onlyDirectRoutes

/-- The `QuoteService` constructor options relevant to `getQuote`. -/
structure QuoteServiceConfig where
  retries : ℕ
  cacheTimeout : ℕ
  slippageConfig : SlippageConfig
deriving DecidableEq

/-- Defaults from the constructor (`retries 3`, `cacheTimeout 15000`). -/
def defaultQuoteServiceConfig : QuoteServiceConfig := ⟨3, 15000, defaultSlippageConfig⟩

deriving instance DecidableEq for Except

/-- Observable outcome of one `QuoteService.getQuote` call: its result, the
cache afterwards, how many HTTP requests were issued and which backoff delays
were slept. -/
structure GetQuoteOutcome where
  result : Except String EnhancedQuote
  cache : QuoteCache
  httpAttempts : ℕ
  delays : List ℕ
deriving DecidableEq

/-- `QuoteService.getQuote(params)` at time `now` with cache state `cache`;
`world n` is the outcome of the `n`-th HTTP attempt. -/
def QuoteService.getQuote (cfg : QuoteServiceConfig) (cache : QuoteCache) (now : ℕ)
    (p : QuoteParams) (world : ℕ → QuoteAttempt) : GetQuoteOutcome :=
  let key := cacheKey p
  let hit : Option EnhancedQuote :=
    match cacheLookup cache key with
    | some entry => if now - entry.timestamp < cfg.cacheTimeout then some entry.value else none
    | none => none
  match hit with
  | some v => ⟨.ok v, cache, 0, []⟩
  | none =>
    let r := quoteRetryLoop world 0 cfg.retries
    match r.1 with
    | none =>
      let msg :=
        match r.2.1 with
        | some e => wrapQuoteError e
        | none => "Quote request failed: Failed to get quote after retries"
      ⟨.error msg, cache, r.2.2.1, r.2.2.2⟩
    | some q =>
      if ¬truthyOptStr q.outAmount then
        ⟨.error "Quote request failed: Invalid quote response from Jupiter", cache,
          r.2.2.1, r.2.2.2⟩
      else
        let enhanced := enhanceQuote cfg.slippageConfig q p now
        ⟨.ok enhanced, cacheSet cache key ⟨enhanced, now⟩, r.2.2.1, r.2.2.2⟩

/-! ### The Express `POST /swap` handler (backend server source) -/

/-- A JSON body field as the handler's destructuring sees it (`absent` models
`undefined`).  The claim-relevant field `feeBps` ranges over all three shapes;
`privateKey`/`feeRecipient` are modelled as strings (`""` for absent/falsy). -/
inductive JsVal
  | absent
  | num (n : ℤ)
  | str (s : String)
deriving DecidableEq

/-- JS truthiness of a body field: `undefined`, `0` and `""` are falsy. -/
def truthyJs : JsVal → Bool
  | .absent => false
  | .num n => n != 0
  | .str s => s != ""

/-- `parseInt` on a body field: a number is converted to its decimal string
first, which for an integer parses back to itself; `parseInt(undefined)` is
`NaN`. -/
def jsParseIntVal : JsVal → Option ℤ
  | .absent => none
  | .num n => some n
  | .str s => jsParseInt s

/-- The request body `{privateKey, feeRecipient, feeBps, rpcEndpoint}`
(`rpcEndpoint = ""` models absent, which is falsy in `rpcEndpoint || default`). -/
structure SwapRequest where
  privateKey : String
  feeRecipient : String
  feeBps : JsVal
  rpcEndpoint : String
deriving DecidableEq

/-- Oracle for the handler's external calls, in program order.  `swap` carries
`response.data.swapTransaction` (possibly absent), `confirm` carries
`confirmation.value.err` (stringified). -/
structure SwapWorld where
  connectionCtor : Except String Unit
  balance : Except String ℕ
  quote : Except String QuoteResp
  swap : Except String (Option String)
  deserializeAndSign : Except String Unit
  send : Except String String
  confirm : Except String (Option String)
deriving DecidableEq

/-- A JSON response of the handler: HTTP status plus the four fields any of its
`res.json` sites can set (`none` = field absent from the body). -/
structure SwapResponse where
  status : ℕ
  success : Option Bool
  signature : Option String
  error : Option String
  logs : Option (List String)
deriving DecidableEq

/-- `res.status(s).json({ error, logs })`. -/
def errResponse (status : ℕ) (e : String) (logs : List String) : SwapResponse :=
  ⟨status, none, none, some e, some logs⟩

/-- `res.json({ success: true, signature, logs })`. -/
def okResponse (signature : String) (logs : List String) : SwapResponse :=
  ⟨200, some true, some signature, none, some logs⟩

/-- `parseFloat` applied to a possibly absent string. -/
def jsParseFloatOpt : Option String → Option ℚ
  | some s => jsParseFloat s
  | none => none

/-- Rendering of a JS number in a template literal (`NaN` prints as "NaN";
fixed-point float formatting is abstracted, no claim reads log text). -/
def numStr : Option ℤ → String
  | some i => intStr i
  | none => "NaN"

/-- Rendering of a JS float in a template literal (same abstraction). -/
def ratStr : Option ℚ → String
  | some q => intStr q.num ++ "/" ++ natStr q.den
  | none => "NaN"

/-- Rendering of `lamports / LAMPORTS_PER_SOL` in a template literal (same
abstraction). -/
def solStr (lamports : ℕ) : String := natStr lamports ++ "/1e9"

/-- The route log line
`quote.routePlan?.map(r => r.swapInfo?.label).join(" → ") || "Direct"`
(`join` renders `undefined` entries as empty strings). -/
def handlerRouteStr (q : QuoteResp) : String :=
  match q.routePlan with
  | none => "Direct"
  | some plan =>
    let s := String.intercalate " → " (plan.map fun r => (r.swapInfo.bind SwapInfo.label).getD "")
    if s = "" then "Direct" else s

/-- The whole `app.post("/swap")` handler: validation gates in source order,
then the balance / quote / swap-build / sign-send-confirm stages, each
`return res...json(...)` site translated literally. -/
def postSwap (req : SwapRequest) (w : SwapWorld) : SwapResponse :=
  if ¬(req.privateKey != "" && req.feeRecipient != "" && truthyJs req.feeBps) then
    errResponse 400 "Missing required fields" []
  else
    match privateKeyError req.privateKey with
    | some m => errResponse 400 ("Invalid private key: " ++ m) []
    | none =>
      if ¬isValidPublicKey req.feeRecipient then
        errResponse 400 "Invalid fee recipient address" []
      else
        match jsParseIntVal req.feeBps with
        | none => errResponse 400 "Fee basis points must be between 0 and 10000" []
        | some feeBpsInt =>
          if feeBpsInt < 0 ∨ 10000 < feeBpsInt then
            errResponse 400 "Fee basis points must be between 0 and 10000" []
          else
            let endpoint :=
              if req.rpcEndpoint = "" then "https://api.mainnet-beta.solana.com"
              else req.rpcEndpoint
            match w.connectionCtor with
            | .error m => errResponse 500 m []
            | .ok _ =>
              let logs1 := ["🌐 Connected to: " ++ endpoint]
              match w.balance with
              | .error m => errResponse 500 m logs1
              | .ok balance =>
                let logs2 := logs1 ++ ["💰 Wallet balance: " ++ solStr balance ++ " SOL"]
                if mkRat balance 1000000000 < mkRat 1 1000 then
                  errResponse 400 "Insufficient SOL balance. Please fund your wallet." logs2
                else
                  let logs3 := logs2 ++ ["📊 Getting quote from Jupiter V6..."]
                  match w.quote with
                  | .error m => errResponse 500 ("Quote request failed: " ++ m) logs3
                  | .ok quote =>
                    if ¬truthyOptStr quote.outAmount then
                      errResponse 500 "Quote request failed: Invalid quote response from Jupiter"
                        logs3
                    else
                      let logs4 := logs3 ++
                        ["✅ Quote received:",
                          "   📥 Input: " ++ solStr 100000 ++ " SOL",
                          "   📤 Output: " ++ numStr (jsParseIntOpt quote.outAmount) ++ "/1e6 USDC",
                          "   💥 Price Impact: " ++ ratStr (jsParseFloatOpt quote.priceImpactPct)
                            ++ "%",
                          "   🛤️  Route: " ++ handlerRouteStr quote,
                          "   💸 Platform Fee: " ++ intStr feeBpsInt ++ " bps to "
                            ++ req.feeRecipient]
                      let logs5 := logs4 ++ ["🔨 Creating swap transaction..."]
                      match w.swap with
                      | .error m =>
                        errResponse 500 ("Swap transaction creation failed: " ++ m) logs5
                      | .ok tx =>
                        if ¬truthyOptStr tx then
                          errResponse 500
                            "Swap transaction creation failed: No swap transaction returned from Jupiter"
                            logs5
                        else
                          match w.deserializeAndSign with
                          | .error m =>
                            errResponse 500 ("Transaction execution failed: " ++ m) logs5
                          | .ok _ =>
                            let logs6 := logs5 ++ ["📨 Sending transaction..."]
                            match w.send with
                            | .error m =>
                              errResponse 500 ("Transaction execution failed: " ++ m) logs6
                            | .ok signature =>
                              let logs7 := logs6 ++
                                ["📨 Transaction sent: " ++ signature,
                                  "⏳ Waiting for confirmation..."]
                              match w.confirm with
                              | .error m =>
                                errResponse 500 ("Transaction execution failed: " ++ m) logs7
                              | .ok confirmErr =>
                                match confirmErr with
                                | some e =>
                                  errResponse 500
                                    ("Transaction execution failed: Transaction failed: " ++ e)
                                    logs7
                                | none =>
                                  let logs8 := logs7 ++
                                    ["🎉 Swap completed successfully!",
                                      "🔗 Explorer: https://solscan.io/tx/" ++ signature]
                                  okResponse signature logs8

/-- C4: every response of the `POST /swap` handler has exactly one of the two
shapes: success `{success, signature, logs}` with no `error` field, or error
`{error, logs}` with no `success`/`signature` field; every error path carries
the accumulated logs array. -/
theorem postSwap_response_shape (req : SwapRequest) (w : SwapWorld) :
    ((postSwap req w).success = some true ∧ (postSwap req w).signature.isSome ∧
        (postSwap req w).error = none ∧ (postSwap req w).logs.isSome) ∨
      ((postSwap req w).success = none ∧ (postSwap req w).signature = none ∧
        (postSwap req w).error.isSome ∧ (postSwap req w).logs.isSome) := by
  unfold postSwap
  repeat' split
  all_goals simp [errResponse, okResponse]

/-- A base58 string decoding to 64 zero bytes (a syntactically valid secret
key). -/
def onesKey64 : String := "1111111111111111111111111111111111111111111111111111111111111111"

/-- A base58 string decoding to 32 zero bytes (a syntactically valid public
key). -/
def onesKey32 : String := "11111111111111111111111111111111"

/-- A world in which every external call of the handler succeeds. -/
def happyWorld : SwapWorld :=
  { connectionCtor := .ok ()
    balance := .ok 2000000
    quote := .ok ⟨some "100", some "0.01", none, none⟩
    swap := .ok (some "dGVzdA==")
    deserializeAndSign := .ok ()
    send := .ok "sig123"
    confirm := .ok none }

/-- The 64 bytes of the genuinely valid secret key built from the all-zero
seed: 32 zero bytes followed by the ed25519 public key of the zero seed. -/
def validKeyBytes : List ℕ :=
  List.replicate 32 0 ++ [59, 106, 39, 188, 206, 182, 164, 45, 98, 163, 168, 208, 42, 111, 13, 115, 101, 50, 21, 119, 29, 226, 67, 166, 58, 192, 72, 161, 139, 89, 218, 41]

/-- The base58 encoding of `validKeyBytes` (its public-key half is the
canonical Solana address 4zvwRjXUKGfvwnParsHAS3HuSVzV5cA4McphgmoCtajS). -/
def validKey64 : String :=
  "111111111111111111111111111111114zvwRjXUKGfvwnParsHAS3HuSVzV5cA4McphgmoCtajS"

set_option maxRecDepth 40000 in
/-- `validKey64` passes the whole private-key try-block, including the
keypair-consistency check. -/
theorem validKey64_accepted : privateKeyError validKey64 = none := by decide


set_option maxRecDepth 40000 in
/-- C2 counterexample: with a fully valid private key, a valid fee recipient
and a world in which every external call succeeds, `feeBps = 0` sent as a JSON
number parses to `0 ∈ [0, 10000]`, yet the handler responds
`400 "Missing required fields"` because `!feeBps` treats the number 0 as
missing; the very same request with `feeBps` as the string `"0"` succeeds. -/
theorem postSwap_feeBps_zero_counterexample :
    (jsParseIntVal (JsVal.num 0) = some 0 ∧ (0 : ℤ) ≤ 0 ∧ (0 : ℤ) ≤ 10000) ∧
      privateKeyError validKey64 = none ∧ isValidPublicKey onesKey32 = true ∧
      postSwap ⟨validKey64, onesKey32, JsVal.num 0, ""⟩ happyWorld =
        errResponse 400 "Missing required fields" [] ∧
      (postSwap ⟨validKey64, onesKey32, JsVal.str "0", ""⟩ happyWorld).status = 200 ∧
      (postSwap ⟨validKey64, onesKey32, JsVal.str "0", ""⟩ happyWorld).success = some true := by
  refine ⟨by decide, validKey64_accepted, by decide, by decide, by decide, by decide⟩

/-- C2 (amended): `validateEnvironment` accepts the fee configuration iff
`parseInt(FEE_BASIS_POINTS)` is an integer in `[0, 10000]` (the other
validations held fixed as passing), and in particular accepts the string `"0"`;
the `POST /swap` handler first rejects every falsy `feeBps` — including the
number `0` — with `400 "Missing required fields"`, and for truthy `feeBps` it
rejects with the fee-range 400 exactly when `parseInt(feeBps)` is not an
integer in `[0, 10000]`. -/
theorem feeBps_validation (env : Env) (req : SwapRequest) (w : SwapWorld)
    (hpk : env.PRIVATE_KEY ≠ "") (hfr : env.FEE_RECIPIENT ≠ "")
    (hfb : env.FEE_BASIS_POINTS ≠ "")
    (hkey : privateKeyError env.PRIVATE_KEY = none)
    (hrec : isValidPublicKey env.FEE_RECIPIENT = true)
    (hpk2 : (req.privateKey != "") = true)
    (hfr2 : (req.feeRecipient != "") = true)
    (hkey2 : privateKeyError req.privateKey = none)
    (hrec2 : isValidPublicKey req.feeRecipient = true) :
    (validateEnvironment env = .ok () ↔
        ∃ n, jsParseInt env.FEE_BASIS_POINTS = some n ∧ 0 ≤ n ∧ n ≤ 10000) ∧
      validateEnvironment ⟨env.PRIVATE_KEY, env.FEE_RECIPIENT, "0"⟩ = .ok () ∧
      (truthyJs req.feeBps = false →
        postSwap req w = errResponse 400 "Missing required fields" []) ∧
      (truthyJs req.feeBps = true →
        (postSwap req w = errResponse 400 "Fee basis points must be between 0 and 10000" [] ↔
          ¬∃ n, jsParseIntVal req.feeBps = some n ∧ 0 ≤ n ∧ n ≤ 10000)) := by
  refine ⟨?_, ?_, ?_, ?_⟩
  · unfold validateEnvironment envMissing
    simp [hpk, hfr, hfb, hkey, hrec]
    rcases hn : jsParseInt env.FEE_BASIS_POINTS with _ | n
    · simp
    · simp only [Option.some.injEq]
      split
      · rename_i hcond
        simp only [reduceCtorEq, false_iff, not_exists, not_and]
        intro m hm h0
        omega
      · rename_i hcond
        simp only [true_iff]
        exact ⟨n, rfl, by omega, by omega⟩
  · have h0 : jsParseInt "0" = some 0 := by decide
    unfold validateEnvironment envMissing
    simp [hpk, hfr, hkey, hrec, h0]
  · intro h
    unfold postSwap
    simp [h]
  · intro htr
    unfold postSwap
    simp only [htr, hpk2, hfr2, hkey2, hrec2, Bool.and_true, Bool.true_and, not_true_eq_false,
      if_false, Bool.not_true]
    rcases hn : jsParseIntVal req.feeBps with _ | n
    · simp [hn]
    · simp only [hn]
      split
      · rename_i hcond
        simp only [Option.some.injEq, true_iff, not_exists, not_and]
        intro m hm h0
        omega
      · rename_i hcond
        refine iff_of_false ?_ (fun hc => hc ⟨n, rfl, by omega, by omega⟩)
        intro hresp
        repeat' split at hresp
        all_goals simp [errResponse, okResponse] at hresp

set_option maxRecDepth 40000 in
/-- Witness for the amended C2 at a concrete accepted configuration
(`FEE_BASIS_POINTS = "30"`, valid key and recipient). -/
theorem feeBps_validation_witness :
    validateEnvironment ⟨validKey64, onesKey32, "30"⟩ = .ok () :=
  (feeBps_validation ⟨validKey64, onesKey32, "30"⟩ ⟨validKey64, onesKey32, .str "30", ""⟩
      happyWorld (by decide) (by decide) (by decide) validKey64_accepted (by decide)
      (by decide) (by decide) validKey64_accepted (by decide)).1.mpr
    ⟨30, by decide, by decide, by decide⟩

set_option maxRecDepth 40000 in
/-- C3 counterexample: `onesKey64` decodes to exactly 64 bytes, yet both
interfaces reject it — `Keypair.fromSecretKey`'s consistency check throws
`provided secretKey is invalid` because the last 32 bytes (all zero) are not
the ed25519 public key of the first 32. -/
theorem privateKey_64bytes_rejected_counterexample :
    (bs58Decode onesKey64).map List.length = some 64 ∧
      validateEnvironment ⟨onesKey64, onesKey32, "50"⟩ =
        .error "Invalid private key: provided secretKey is invalid" ∧
      postSwap ⟨onesKey64, onesKey32, .str "50", ""⟩ happyWorld =
        errResponse 400 "Invalid private key: provided secretKey is invalid" [] := by
  refine ⟨by decide, by decide, by decide⟩

/-- C3 (amended): private-key validation accepts a string iff its base58
decoding yields exactly 64 bytes *and* the last 32 bytes equal the ed25519
public key derived from the first 32 (`Keypair.fromSecretKey`'s consistency
check); a decode failure, another length, or an inconsistent keypair makes
`validateEnvironment` throw `Invalid private key: ...` and the `POST /swap`
handler respond 400 with the same message (the other validations are held
fixed as passing). -/
theorem privateKey_validation (env : Env) (req : SwapRequest) (w : SwapWorld) (feeN : ℤ)
    (hpk : env.PRIVATE_KEY ≠ "") (hfr : env.FEE_RECIPIENT ≠ "")
    (hfb : env.FEE_BASIS_POINTS ≠ "")
    (hrec : isValidPublicKey env.FEE_RECIPIENT = true)
    (hfee : jsParseInt env.FEE_BASIS_POINTS = some feeN)
    (hfee0 : 0 ≤ feeN) (hfee1 : feeN ≤ 10000)
    (hpk2 : (req.privateKey != "") = true)
    (hfr2 : (req.feeRecipient != "") = true)
    (htr : truthyJs req.feeBps = true) :
    (∀ s : String, privateKeyError s = none ↔
        ∃ b, bs58Decode s = some b ∧ b.length = 64 ∧ secretKeyValid b = true) ∧
      (validateEnvironment env = .ok () ↔
        ∃ b, bs58Decode env.PRIVATE_KEY = some b ∧ b.length = 64 ∧
          secretKeyValid b = true) ∧
      (∀ m, privateKeyError env.PRIVATE_KEY = some m →
        validateEnvironment env = .error ("Invalid private key: " ++ m)) ∧
      (∀ m, privateKeyError req.privateKey = some m →
        postSwap req w = errResponse 400 ("Invalid private key: " ++ m) []) := by
  have h1 : ∀ s : String, privateKeyError s = none ↔
      ∃ b, bs58Decode s = some b ∧ b.length = 64 ∧ secretKeyValid b = true := by
    intro s
    unfold privateKeyError
    rcases hd : bs58Decode s with _ | bytes
    · simp
    · simp only [Option.some.injEq]
      split
      · rename_i hlen
        simp
        intro hb
        exact absurd hb hlen
      · rename_i hlen
        split
        · rename_i hval
          simp
          intro hb
          simpa using hval
        · rename_i hval
          simp
          exact ⟨by omega, by simpa using hval⟩
  refine ⟨h1, ?_, ?_, ?_⟩
  · rw [← h1 env.PRIVATE_KEY]
    unfold validateEnvironment envMissing
    simp [hpk, hfr, hfb, hrec, hfee]
    rcases hk : privateKeyError env.PRIVATE_KEY with _ | m
    · have hrange : ¬(feeN < 0 ∨ 10000 < feeN) := by omega
      simp [hrange]
    · simp
  · intro m hm
    unfold validateEnvironment envMissing
    simp [hpk, hfr, hfb, hm]
  · intro m hm
    unfold postSwap
    simp [htr, hpk2, hfr2, hm]

set_option maxRecDepth 40000 in
/-- Witness for the amended C3: the genuinely valid key (zero seed plus its
derived public key) is accepted by `validateEnvironment`. -/
theorem privateKey_validation_witness :
    validateEnvironment ⟨validKey64, onesKey32, "50"⟩ = .ok () :=
  (privateKey_validation ⟨validKey64, onesKey32, "50"⟩
      ⟨validKey64, onesKey32, .str "50", ""⟩ happyWorld 50 (by decide) (by decide)
      (by decide) (by decide) (by decide) (by decide) (by decide) (by decide) (by decide)
      (by decide)).2.1.mpr ⟨validKeyBytes, by decide, by decide, by decide⟩

/-! ### CoreSwap: checkBalance, getQuote, createSwapTransaction, executeSwap,
performSwap (src/core-swap.js) and main (src/index.js) -/

/-- `simulationResult.value` (`err` stringified, `none` = `null`). -/
structure SimResult where
  err : Option String
deriving DecidableEq

/-- `confirmation.value`. -/
structure ConfirmResult where
  err : Option String
deriving DecidableEq

/-- The `CoreSwap` constructor options that influence control flow. -/
structure CoreOptions where
  useSharedAccounts : Bool
  onlyDirectRoutes : Bool
  includeDetailedBalance : Bool
deriving DecidableEq

/-- Oracle for `CoreSwap`'s external calls: wallet balance, quote HTTP call,
swap-build HTTP call (`response.data.swapTransaction`), transaction
deserialization, simulation, per-attempt `sendTransaction` outcomes, and
confirmation. -/
structure CoreWorld where
  balance : Except String ℕ
  quote : Except AxiosError QuoteResp
  swap : Except AxiosError (Option String)
  deserialize : Except String Unit
  simulation : Except String SimResult
  send : ℕ → Except String String
  confirm : Except String ConfirmResult

/-- `SWAP_AMOUNT` (lamports). -/
def SWAP_AMOUNT : ℕ := 100000

/-- Token-account rent reserve used by the detailed balance check. -/
def rentReserve : ℕ := 2039280

/-- Transaction-fee buffer used by the detailed balance check. -/
def feeBuffer : ℕ := 500000

/-- `CoreSwap.checkBalance` (the long interpolated error texts are abbreviated
to their leading sentence; no claim reads them). -/
def checkBalance (opts : CoreOptions) (w : CoreWorld) : Except String ℕ :=
  match w.balance with
  | .error m => .error m
  | .ok balance =>
    if opts.includeDetailedBalance then
      if balance < SWAP_AMOUNT then
        .error ("Insufficient balance for swap. Need " ++ solStr SWAP_AMOUNT ++ " SOL, have "
          ++ solStr balance ++ " SOL")
      else if balance < SWAP_AMOUNT + rentReserve + feeBuffer then
        .error ("Insufficient balance for swap + fees. Need "
          ++ solStr (SWAP_AMOUNT + rentReserve + feeBuffer) ++ " SOL total")
      else .ok balance
    else
      if balance < SWAP_AMOUNT then
        .error ("Insufficient balance. Need " ++ solStr SWAP_AMOUNT ++ " SOL, have "
          ++ solStr balance ++ " SOL")
      else .ok balance

/-- `CoreSwap.getQuote`: one HTTP attempt on the fixed SOL→USDC pair and fixed
`SWAP_AMOUNT`; failures and an invalid body are wrapped by its catch exactly
like in `QuoteService`. -/
def CoreSwap.getQuote (w : CoreWorld) : Except String QuoteResp :=
  match w.quote with
  | .error e => .error (wrapQuoteError e)
  | .ok quote =>
    if ¬truthyOptStr quote.outAmount then
      .error "Quote request failed: Invalid quote response from Jupiter"
    else .ok quote

/-- `CoreSwap.createSwapTransaction`. -/
def CoreSwap.createSwapTransaction (w : CoreWorld) : Except String String :=
  match w.swap with
  | .error e =>
    .error (match e.responseError with
      | some api => "Jupiter swap API error: " ++ api
      | none => "Swap transaction creation failed: " ++ e.message)
  | .ok tx =>
    if ¬truthyOptStr tx then
      .error "Swap transaction creation failed: No swap transaction returned from Jupiter"
    else .ok (tx.getD "")

/-- The manual send loop of `executeSwap` (`maxAttempts` as fuel): outcome and
the number of `sendTransaction` invocations. -/
def sendLoop (send : ℕ → Except String String) (attempt : ℕ) :
    ℕ → Except String String × ℕ
  | 0 => (.error "", 0)
  | remaining + 1 =>
    match send attempt with
    | .ok signature => (.ok signature, 1)
    | .error e =>
      if remaining = 0 then (.error e, 1)
      else
        let r := sendLoop send (attempt + 1) remaining
        (r.1, r.2 + 1)

/-- Result of `CoreSwap.executeSwap`: its outcome and how many times
`connection.sendTransaction` was invoked. -/
structure ExecOutcome where
  result : Except String String
  sendCalls : ℕ
deriving DecidableEq

/-- `CoreSwap.executeSwap` (src/core-swap.js lines 241-353): deserialize and
sign, simulate (both option branches throw identically on `value.err`), send
with up to 3 manual attempts, confirm; every thrown error is wrapped by the
outer catch as `Transaction execution failed: ...`. -/
def CoreSwap.executeSwap (opts : CoreOptions) (w : CoreWorld) : ExecOutcome :=
  match w.deserialize with
  | .error m => ⟨.error ("Transaction execution failed: " ++ m), 0⟩
  | .ok _ =>
    match w.simulation with
    | .error m => ⟨.error ("Transaction execution failed: " ++ m), 0⟩
    | .ok sim =>
      match sim.err with
      | some e =>
        ⟨.error ("Transaction execution failed: Transaction simulation failed: " ++ e), 0⟩
      | none =>
        let s := sendLoop w.send 0 3
        match s.1 with
        | .error e => ⟨.error ("Transaction execution failed: " ++ e), s.2⟩
        | .ok signature =>
          match w.confirm with
          | .error m => ⟨.error ("Transaction execution failed: " ++ m), s.2⟩
          | .ok c =>
            match c.err with
            | some e =>
              ⟨.error ("Transaction execution failed: Transaction failed: " ++ e), s.2⟩
            | none => ⟨.ok signature, s.2⟩

/-- `CoreSwap.performSwap`: balance check, quote, build, execute; its catch
logs the failure and rethrows the same error. -/
def performSwap (opts : CoreOptions) (w : CoreWorld) : Except String String :=
  match checkBalance opts w with
  | .error m => .error m
  | .ok _ =>
    match CoreSwap.getQuote w with
    | .error m => .error m
    | .ok _ =>
      match CoreSwap.createSwapTransaction w with
      | .error m => .error m
      | .ok _ => (CoreSwap.executeSwap opts w).result

/-- The options `index.js` passes to `CoreSwap` (detailed balance checking). -/
def indexOptions : CoreOptions := ⟨false, true, true⟩

/-- `main()` of src/index.js: `process.exit(0)` on success, `process.exit(1)`
on any error. -/
def indexMain (w : CoreWorld) : ℕ :=
  match performSwap indexOptions w with
  | .ok _ => 0
  | .error _ => 1

/-- C5: when simulation reports an error, `executeSwap` throws without ever
calling `sendTransaction`, `performSwap` rethrows the same error, and `main`
exits with code 1; when confirmation reports an error the run aborts the same
way (earlier stages held fixed as succeeding). -/
theorem simulation_confirm_failures_abort (w : CoreWorld) (b : ℕ) (q : QuoteResp) (tx : String)
    (hbal : w.balance = .ok b) (hb : SWAP_AMOUNT + rentReserve + feeBuffer ≤ b)
    (hq : w.quote = .ok q) (hqa : truthyOptStr q.outAmount = true)
    (hsw : w.swap = .ok (some tx)) (htx : tx ≠ "")
    (hds : w.deserialize = .ok ()) :
    (∀ e, w.simulation = .ok ⟨some e⟩ →
      (CoreSwap.executeSwap indexOptions w).sendCalls = 0 ∧
        (CoreSwap.executeSwap indexOptions w).result =
          .error ("Transaction execution failed: Transaction simulation failed: " ++ e) ∧
        performSwap indexOptions w =
          .error ("Transaction execution failed: Transaction simulation failed: " ++ e) ∧
        indexMain w = 1) ∧
      (∀ e sig, w.simulation = .ok ⟨none⟩ → w.send 0 = .ok sig →
        w.confirm = .ok ⟨some e⟩ →
        (CoreSwap.executeSwap indexOptions w).result =
          .error ("Transaction execution failed: Transaction failed: " ++ e) ∧
        indexMain w = 1) := by
  have hb' : 2639280 ≤ b := by
    simpa [SWAP_AMOUNT, rentReserve, feeBuffer] using hb
  have hbal1 : ¬(b < SWAP_AMOUNT) := by
    simp only [SWAP_AMOUNT]
    omega
  have hbal2 : ¬(b < SWAP_AMOUNT + rentReserve + feeBuffer) := by
    simp only [SWAP_AMOUNT, rentReserve, feeBuffer]
    omega
  have htx' : truthyOptStr (some tx) = true := by simp [truthyOptStr, htx]
  constructor
  · intro e hsim
    have hexec : CoreSwap.executeSwap indexOptions w =
        ⟨.error ("Transaction execution failed: Transaction simulation failed: " ++ e), 0⟩ := by
      unfold CoreSwap.executeSwap
      simp [hds, hsim]
    have hexecL := hexec
    simp only [indexOptions] at hexecL
    have hperf : performSwap indexOptions w =
        .error ("Transaction execution failed: Transaction simulation failed: " ++ e) := by
      unfold performSwap checkBalance CoreSwap.getQuote CoreSwap.createSwapTransaction
      simp [hbal, hq, hqa, hsw, htx', hbal1, hbal2, indexOptions, hexecL]
    refine ⟨by simp [hexec], by simp [hexec], hperf, ?_⟩
    unfold indexMain
    simp [hperf]
  · intro e sig hsim hsend hconf
    have hexec : (CoreSwap.executeSwap indexOptions w).result =
        .error ("Transaction execution failed: Transaction failed: " ++ e) := by
      unfold CoreSwap.executeSwap sendLoop
      simp [hds, hsim, hsend, hconf]
    have hexecL := hexec
    simp only [indexOptions] at hexecL
    have hperf : performSwap indexOptions w =
        .error ("Transaction execution failed: Transaction failed: " ++ e) := by
      unfold performSwap checkBalance CoreSwap.getQuote CoreSwap.createSwapTransaction
      simp [hbal, hq, hqa, hsw, htx', hbal1, hbal2, indexOptions, hexecL]
    refine ⟨hexec, ?_⟩
    unfold indexMain
    simp [hperf]

/-- A concrete world whose simulation reports an `InstructionError` while
every earlier stage succeeds. -/
def simFailWorld : CoreWorld :=
  { balance := .ok 3000000
    quote := .ok ⟨some "100", some "0.01", none, none⟩
    swap := .ok (some "dGVzdA==")
    deserialize := .ok ()
    simulation := .ok ⟨some "InstructionError"⟩
    send := fun _ => .ok "sig123"
    confirm := .ok ⟨none⟩ }

/-- Witness for C5 at `simFailWorld`: no send, wrapped error, exit code 1. -/
theorem simulation_confirm_failures_abort_witness :
    (CoreSwap.executeSwap indexOptions simFailWorld).sendCalls = 0 ∧
      (CoreSwap.executeSwap indexOptions simFailWorld).result =
        .error ("Transaction execution failed: Transaction simulation failed: "
          ++ "InstructionError") ∧
      performSwap indexOptions simFailWorld =
        .error ("Transaction execution failed: Transaction simulation failed: "
          ++ "InstructionError") ∧
      indexMain simFailWorld = 1 :=
  (simulation_confirm_failures_abort simFailWorld 3000000 ⟨some "100", some "0.01", none, none⟩
      "dGVzdA==" rfl (by decide) rfl (by decide) rfl (by decide) rfl).1 "InstructionError" rfl

/-! ### C6: retry behaviour of QuoteService.getQuote -/

/-- The retry loop never issues more attempts than it has remaining. -/
theorem quoteRetryLoop_count_le (world : ℕ → QuoteAttempt) :
    ∀ remaining attempt, (quoteRetryLoop world attempt remaining).2.2.1 ≤ remaining := by
  intro remaining
  induction remaining with
  | zero => intro attempt; simp [quoteRetryLoop]
  | succ r ih =>
    intro attempt
    unfold quoteRetryLoop
    cases h : world attempt with
    | ok q => simp
    | error e =>
      simp only
      split
      · simp
      · have := ih (attempt + 1)
        simp
        omega

/-- If every attempt in the window fails, the loop returns no quote, the error
of the last attempt, exactly `remaining` attempts, and the backoff delays
`2^i * 1000` for every attempt except the last. -/
theorem quoteRetryLoop_all_fail (world : ℕ → QuoteAttempt) (e : ℕ → AxiosError) :
    ∀ remaining attempt, 0 < remaining →
      (∀ i, i < remaining → world (attempt + i) = .error (e (attempt + i))) →
      quoteRetryLoop world attempt remaining =
        (none, some (e (attempt + remaining - 1)), remaining,
          (List.range (remaining - 1)).map fun i => 2 ^ (attempt + i) * 1000) := by
  intro remaining
  induction remaining with
  | zero => omega
  | succ r ih =>
    intro attempt _ hfail
    have h0 : world attempt = .error (e attempt) := by
      have := hfail 0 (by omega)
      simpa using this
    unfold quoteRetryLoop
    rw [h0]
    simp only
    rcases Nat.eq_zero_or_pos r with hr | hr
    · subst hr
      simp
    · have hrec := ih (attempt + 1) hr fun i hi => by
        have := hfail (i + 1) (by omega)
        simpa [Nat.add_assoc, Nat.add_comm 1 i] using this
      rw [if_neg (by omega), hrec]
      have hlast : attempt + 1 + r - 1 = attempt + (r + 1) - 1 := by omega
      have hrange : List.range r = 0 :: (List.range (r - 1)).map Nat.succ := by
        rcases Nat.exists_eq_add_of_lt hr with ⟨m, hm⟩
        subst hm
        simp [List.range_succ_eq_map]
      simp only [hlast]
      refine Prod.ext rfl (Prod.ext ?_ (Prod.ext ?_ ?_)) <;> simp
      rw [hrange]
      simp [List.map_map, Function.comp]
      intro a ha
      omega

/-- If the first `k` attempts fail and attempt `k` succeeds (within the
window), the loop stops at the first success: `k + 1` attempts and the backoff
delays of the `k` failures. -/
theorem quoteRetryLoop_first_success (world : ℕ → QuoteAttempt) (e : ℕ → AxiosError)
    (q : QuoteResp) :
    ∀ k remaining attempt, k < remaining →
      (∀ i, i < k → world (attempt + i) = .error (e (attempt + i))) →
      world (attempt + k) = .ok q →
      (quoteRetryLoop world attempt remaining).1 = some q ∧
        (quoteRetryLoop world attempt remaining).2.2.1 = k + 1 ∧
        (quoteRetryLoop world attempt remaining).2.2.2 =
          (List.range k).map fun i => 2 ^ (attempt + i) * 1000 := by
  intro k
  induction k with
  | zero =>
    intro remaining attempt hk hfail hok
    rcases remaining with _ | r
    · omega
    · unfold quoteRetryLoop
      rw [show attempt + 0 = attempt from rfl] at hok
      rw [hok]
      simp
  | succ j ih =>
    intro remaining attempt hk hfail hok
    rcases remaining with _ | r
    · omega
    · have h0 : world attempt = .error (e attempt) := by
        simpa using hfail 0 (by omega)
      unfold quoteRetryLoop
      rw [h0]
      simp only
      rw [if_neg (by omega : ¬(r = 0))]
      have hfail' : ∀ i, i < j → world (attempt + 1 + i) = .error (e (attempt + 1 + i)) := by
        intro i hi
        have h := hfail (i + 1) (by omega)
        have heq : attempt + (i + 1) = attempt + 1 + i := by omega
        rw [heq] at h
        exact h
      have hok' : world (attempt + 1 + j) = .ok q := by
        have heq : attempt + (j + 1) = attempt + 1 + j := by omega
        rw [heq] at hok
        exact hok
      have hrec := ih r (attempt + 1) (by omega) hfail' hok'
      refine ⟨by simp [hrec.1], by simp [hrec.2.1], ?_⟩
      simp only
      rw [hrec.2.2, List.range_succ_eq_map]
      simp [List.map_map, Function.comp]
      intro a ha
      omega

/-- The SOL mint constant. -/
def solMint : String := "So11111111111111111111111111111111111111112"

/-- The USDC mint constant. -/
def usdcMint : String := "EPjFWdd5AufqSSqeM2qN1xzybapC8G4wEGGkZwyTDt1v"

/-- The fixed quote parameters used by the scripts. -/
def params0 : QuoteParams := ⟨solMint, usdcMint, 100000, 100, false⟩

/-- A world in which every HTTP attempt fails with message "boom". -/
def allFailWorld : ℕ → QuoteAttempt := fun _ => .error ⟨"boom", none⟩

set_option maxRecDepth 4000 in
/-- C6 counterexample: when all (default 3) attempts fail with the error
"boom", `getQuote` performs 3 attempts with delays 1000 ms and 2000 ms, but
the error it throws is the wrapper `"Quote request failed: boom"`, not the
last error received. -/
theorem getQuote_wraps_last_error_counterexample :
    (QuoteService.getQuote defaultQuoteServiceConfig [] 0 params0 allFailWorld).result =
        .error "Quote request failed: boom" ∧
      "Quote request failed: boom" ≠ "boom" ∧
      (QuoteService.getQuote defaultQuoteServiceConfig [] 0 params0 allFailWorld).httpAttempts
          = 3 ∧
      (QuoteService.getQuote defaultQuoteServiceConfig [] 0 params0 allFailWorld).delays
          = [1000, 2000] := by
  decide

/-- C6 (amended): on an empty cache, `getQuote` issues at most `retries`
attempts; if all attempts fail it performs exactly `retries` attempts with
delays `2^i * 1000` ms between consecutive attempts and throws an error
wrapping the message of the last error received (`Quote request failed: ...`,
or `Jupiter API error: ...` when the last error carries a response body); it
stops at the first successful attempt and returns the enhanced quote built
from that first successful response. -/
theorem getQuote_retry_backoff (cfg : QuoteServiceConfig) (p : QuoteParams) (now : ℕ)
    (world : ℕ → QuoteAttempt) (e : ℕ → AxiosError) (q : QuoteResp) (k : ℕ) :
    (QuoteService.getQuote cfg [] now p world).httpAttempts ≤ cfg.retries ∧
      (0 < cfg.retries → (∀ i, i < cfg.retries → world i = .error (e i)) →
        QuoteService.getQuote cfg [] now p world =
          ⟨.error (wrapQuoteError (e (cfg.retries - 1))), [], cfg.retries,
            (List.range (cfg.retries - 1)).map fun i => 2 ^ i * 1000⟩) ∧
      (k < cfg.retries → (∀ i, i < k → world i = .error (e i)) → world k = .ok q →
        truthyOptStr q.outAmount = true →
        QuoteService.getQuote cfg [] now p world =
          ⟨.ok (enhanceQuote cfg.slippageConfig q p now),
            cacheSet [] (cacheKey p) ⟨enhanceQuote cfg.slippageConfig q p now, now⟩,
            k + 1, (List.range k).map fun i => 2 ^ i * 1000⟩) := by
  refine ⟨?_, ?_, ?_⟩
  · have hle := quoteRetryLoop_count_le world cfg.retries 0
    unfold QuoteService.getQuote
    simp only [cacheLookup, List.find?_nil, Option.map_none']
    rcases hqq : quoteRetryLoop world 0 cfg.retries with ⟨q1, e1, n1, ds1⟩
    rw [hqq] at hle
    rcases q1 with _ | qv
    · simpa using hle
    · simp only
      split <;> simpa using hle
  · intro hr hfail
    have hall := quoteRetryLoop_all_fail world e cfg.retries 0 hr
      (fun i hi => by simpa using hfail i hi)
    simp only [Nat.zero_add] at hall
    unfold QuoteService.getQuote
    simp only [cacheLookup, List.find?_nil, Option.map_none']
    rw [hall]
  · intro hk hfail hok htruthy
    have hsucc := quoteRetryLoop_first_success world e q k cfg.retries 0 hk
      (fun i hi => by simpa using hfail i hi) (by simpa using hok)
    rcases hqq : quoteRetryLoop world 0 cfg.retries with ⟨q1, e1, n1, ds1⟩
    rw [hqq] at hsucc
    obtain ⟨h1, h2, h3⟩ := hsucc
    simp only at h1 h2 h3
    subst h1 h2 h3
    unfold QuoteService.getQuote
    simp only [cacheLookup, List.find?_nil, Option.map_none']
    rw [hqq]
    simp [htruthy]

/-- A well-formed raw quote used as a concrete success response. -/
def q0wit : QuoteResp := ⟨some "100", some "0.01", none, none⟩

/-- A world whose first attempt fails with "boom" and whose second succeeds. -/
def oneFailWorld : ℕ → QuoteAttempt :=
  fun i => if i = 0 then .error ⟨"boom", none⟩ else .ok q0wit

/-- Witness for the amended C6: one failure then one success gives 2 attempts,
one 1000 ms delay, and the enhanced quote of the first success. -/
theorem getQuote_retry_backoff_witness :
    QuoteService.getQuote defaultQuoteServiceConfig [] 5 params0 oneFailWorld =
      ⟨.ok (enhanceQuote defaultQuoteServiceConfig.slippageConfig q0wit params0 5),
        cacheSet [] (cacheKey params0)
          ⟨enhanceQuote defaultQuoteServiceConfig.slippageConfig q0wit params0 5, 5⟩,
        2, [1000]⟩ :=
  (getQuote_retry_backoff defaultQuoteServiceConfig params0 5 oneFailWorld
      (fun _ => ⟨"boom", none⟩) q0wit 1).2.2 (by decide)
    (fun i hi => by
      have h0 : i = 0 := by omega
      subst h0
      rfl)
    rfl (by decide)

/-! ### NetworkService.executeParallelCalls: in-flight request dedup -/

/-- A primitive JSON value for RPC call parameters (the repository's calls
pass flat arrays of primitives; nested objects are not needed for the key
semantics). -/
inductive JsonPrim
  | jnull
  | jbool (b : Bool)
  | jnum (n : ℤ)
  | jstr (s : String)
deriving DecidableEq

/-- `JSON.stringify` of one primitive (string escaping is not modelled; equal
values give equal renderings either way). -/
def jsonPrimStr : JsonPrim → String
  | .jnull => "null"
  | .jbool b => boolStr b
  | .jnum n => intStr n
  | .jstr s => "\"" ++ s ++ "\""

/-- `JSON.stringify(params)` for a parameter array. -/
def jsonStringifyArr (params : List JsonPrim) : String :=
  "[" ++ String.intercalate "," (params.map jsonPrimStr) ++ "]"

/-- One element of the `calls` array: `{ method, params, cacheKey }`. -/
structure RpcCall where
  method : String
  params : List JsonPrim
  cacheKey : Option String
deriving DecidableEq

/-- The in-flight pool key `` `${method}_${JSON.stringify(params)}` ``. -/
def requestKey (c : RpcCall) : String := c.method ++ "_" ++ jsonStringifyArr c.params

/-- The `NetworkService` result cache (key, value, timestamp). -/
abbrev NetCache := List (String × String × ℕ)

/-- Whether a provided `cacheKey` hits a fresh cache entry. -/
def netCacheFresh (cache : NetCache) (cacheTimeout now : ℕ) (k : String) : Bool :=
  match cache.find? fun p => p.1 == k with
  | some entry => now - entry.2.2 < cacheTimeout
  | none => false

/-- How one call of a batch is served: from the result cache, by sharing an
in-flight promise from the request pool, or by a fresh RPC invocation. -/
inductive CallSource
  | cached
  | shared
  | fresh
deriving DecidableEq

/-- The synchronous dispatch phase of `executeParallelCalls`: each `calls.map`
async callback runs up to its first `await` in array order on the single JS
thread, so the cache check, the `requestPool` lookup and the pool insertion of
the calls happen sequentially before any RPC settles.  Returns how each call
is served and the request pool afterwards. -/
def dispatchBatch (cacheTimeout now : ℕ) (cache : NetCache) :
    List String → List RpcCall → List CallSource × List String
  | pool, [] => ([], pool)
  | pool, c :: rest =>
    if (match c.cacheKey with
        | some k => netCacheFresh cache cacheTimeout now k
        | none => false) then
      let r := dispatchBatch cacheTimeout now cache pool rest
      (.cached :: r.1, r.2)
    else if pool.contains (requestKey c) then
      let r := dispatchBatch cacheTimeout now cache pool rest
      (.shared :: r.1, r.2)
    else
      let r := dispatchBatch cacheTimeout now cache (pool ++ [requestKey c]) rest
      (.fresh :: r.1, r.2)

/-- The `finally` handler of the request promise: the pool entry is deleted
once the request settles. -/
def settleRequest (pool : List String) (k : String) : List String := pool.erase k

/-- C7: two calls of one batch with identical method and params (and no cache
fast path) share a single RPC invocation — the first is fresh, the second is
served from the pool under the key `` `${method}_${JSON.stringify(params)}` ``
— and settling removes the pool entry, so a later identical call issues a
fresh request. -/
theorem executeParallelCalls_dedup (c1 c2 : RpcCall) (cacheTimeout now : ℕ)
    (cache : NetCache) (hm : c1.method = c2.method) (hp : c1.params = c2.params)
    (hc1 : c1.cacheKey = none) (hc2 : c2.cacheKey = none) :
    (dispatchBatch cacheTimeout now cache [] [c1, c2]).1 = [.fresh, .shared] ∧
      (dispatchBatch cacheTimeout now cache [] [c1, c2]).2 = [requestKey c1] ∧
      requestKey c1 = c1.method ++ "_" ++ jsonStringifyArr c1.params ∧
      requestKey c2 = requestKey c1 ∧
      settleRequest (dispatchBatch cacheTimeout now cache [] [c1, c2]).2 (requestKey c1)
          = [] ∧
      (dispatchBatch cacheTimeout now cache
          (settleRequest (dispatchBatch cacheTimeout now cache [] [c1, c2]).2 (requestKey c1))
          [c2]).1 = [.fresh] := by
  have hkey : requestKey c2 = requestKey c1 := by
    unfold requestKey
    rw [hm, hp]
  have hdis : dispatchBatch cacheTimeout now cache [] [c1, c2] =
      ([.fresh, .shared], [requestKey c1]) := by
    simp [dispatchBatch, hc1, hc2, hkey]
  refine ⟨by rw [hdis], by rw [hdis], rfl, hkey, ?_, ?_⟩
  · rw [hdis]
    simp [settleRequest]
  · rw [hdis]
    simp [settleRequest, dispatchBatch, hc2, hkey]

/-- A concrete `getBalance` call for the witness. -/
def rpcCall0 : RpcCall := ⟨"getBalance", [.jstr "wallet"], none⟩

/-- Witness for C7 at two identical concrete `getBalance` calls. -/
theorem executeParallelCalls_dedup_witness :
    (dispatchBatch 30000 0 [] [] [rpcCall0, rpcCall0]).1 = [.fresh, .shared] ∧
      (dispatchBatch 30000 0 [] [] [rpcCall0, rpcCall0]).2 = [requestKey rpcCall0] ∧
      requestKey rpcCall0 = rpcCall0.method ++ "_" ++ jsonStringifyArr rpcCall0.params ∧
      requestKey rpcCall0 = requestKey rpcCall0 ∧
      settleRequest (dispatchBatch 30000 0 [] [] [rpcCall0, rpcCall0]).2 (requestKey rpcCall0)
          = [] ∧
      (dispatchBatch 30000 0 []
          (settleRequest (dispatchBatch 30000 0 [] [] [rpcCall0, rpcCall0]).2
            (requestKey rpcCall0))
          [rpcCall0]).1 = [.fresh] :=
  executeParallelCalls_dedup rpcCall0 rpcCall0 30000 0 [] rfl rfl rfl rfl

/-! ### C10: cache behaviour of QuoteService.getQuote and cache-key
injectivity -/

/-- Every character the fuelled digit renderer emits is a decimal digit
(code 48–57), provided the fuel dominates the value. -/
theorem natDigitsAux_mem_range (fuel : ℕ) :
    ∀ n, n ≤ fuel → ∀ c ∈ natDigitsAux fuel n, 48 ≤ c.toNat ∧ c.toNat ≤ 57 := by
  induction fuel with
  | zero =>
    intro n hn c hc
    have h0 : n = 0 := by omega
    subst h0
    simp [natDigitsAux] at hc
    subst hc
    decide
  | succ f ih =>
    intro n hn c hc
    by_cases h10 : n < 10
    · simp [natDigitsAux, h10] at hc
      subst hc
      interval_cases n <;> decide
    · simp [natDigitsAux, h10] at hc
      rcases hc with hc | hc
      · exact ih (n / 10) (by omega) c hc
      · subst hc
        have : n % 10 < 10 := Nat.mod_lt _ (by omega)
        interval_cases h : n % 10 <;> decide

/-- The digit renderer never emits an underscore. -/
theorem natStr_no_underscore (n : ℕ) : '_' ∉ (natStr n).data := by
  intro hmem
  have := natDigitsAux_mem_range n n (le_refl n) '_' hmem
  simp at this

/-- The digit renderer never emits a minus sign. -/
theorem natStr_no_minus (n : ℕ) : '-' ∉ (natStr n).data := by
  intro hmem
  have := natDigitsAux_mem_range n n (le_refl n) '-' hmem
  simp at this

/-- The digit renderer emits at least one character. -/
theorem natStr_ne_nil (n : ℕ) : (natStr n).data ≠ [] := by
  unfold natStr natDigits
  cases hf : n with
  | zero => simp [natDigitsAux]
  | succ f =>
    simp only [natDigitsAux]
    split <;> simp

/-- The integer renderer never emits an underscore. -/
theorem intStr_no_underscore (i : ℤ) : '_' ∉ (intStr i).data := by
  unfold intStr
  split
  · intro hmem
    rw [String.data_append] at hmem
    rcases List.mem_append.mp hmem with h | h
    · simp at h
    · exact natStr_no_underscore _ h
  · exact natStr_no_underscore _

/-- The boolean renderer never emits an underscore. -/
theorem boolStr_no_underscore (b : Bool) : '_' ∉ (boolStr b).data := by
  cases b <;> decide

/-- Digit-list evaluation of an append ending in one character. -/
theorem decDigitsNum_append_singleton (ds : List Char) (c : Char) :
    decDigitsNum (ds ++ [c]) = 10 * decDigitsNum ds + digitVal c := by
  unfold decDigitsNum
  rw [List.foldl_append]
  simp [Nat.mul_comm]

/-- The fuelled digit renderer round-trips through evaluation. -/
theorem natDigitsAux_val (fuel : ℕ) :
    ∀ n, n ≤ fuel → decDigitsNum (natDigitsAux fuel n) = n := by
  induction fuel with
  | zero =>
    intro n hn
    have h0 : n = 0 := by omega
    subst h0
    decide
  | succ f ih =>
    intro n hn
    by_cases h10 : n < 10
    · simp only [natDigitsAux, h10, if_true]
      unfold decDigitsNum
      simp only [List.foldl_cons, List.foldl_nil, Nat.zero_mul, Nat.zero_add]
      unfold digitVal
      interval_cases n <;> decide
    · simp only [natDigitsAux, h10, if_false]
      rw [decDigitsNum_append_singleton, ih (n / 10) (by omega)]
      have hval : digitVal (Char.ofNat (48 + n % 10)) = n % 10 := by
        have : n % 10 < 10 := Nat.mod_lt _ (by omega)
        unfold digitVal
        interval_cases h : n % 10 <;> decide
      rw [hval]
      omega

/-- `natStr` is injective. -/
theorem natStr_inj {n m : ℕ} (h : natStr n = natStr m) : n = m := by
  have hd : natDigitsAux n n = natDigitsAux m m := congrArg String.data h
  have h1 := natDigitsAux_val n n (le_refl n)
  have h2 := natDigitsAux_val m m (le_refl m)
  calc n = decDigitsNum (natDigitsAux n n) := h1.symm
    _ = decDigitsNum (natDigitsAux m m) := by rw [hd]
    _ = m := h2

/-- Data-level injectivity of the digit renderer. -/
theorem natStr_data_inj {n m : ℕ} (h : (natStr n).data = (natStr m).data) : n = m := by
  have h1 := natDigitsAux_val n n (le_refl n)
  have h2 := natDigitsAux_val m m (le_refl m)
  calc n = decDigitsNum (natDigitsAux n n) := h1.symm
    _ = decDigitsNum (natDigitsAux m m) := by
        rw [show natDigitsAux n n = (natStr n).data from rfl,
          show natDigitsAux m m = (natStr m).data from rfl, h]
    _ = m := h2

/-- Data-level injectivity of the integer renderer. -/
theorem intStr_data_inj {i j : ℤ} (h : (intStr i).data = (intStr j).data) : i = j := by
  unfold intStr at h
  by_cases hi : i < 0 <;> by_cases hj : j < 0 <;>
    simp only [hi, hj, if_true, if_false, String.data_append] at h
  · simp only [List.singleton_append, List.cons.injEq, true_and] at h
    have := natStr_data_inj h
    omega
  · exfalso
    have hmem : '-' ∈ (natStr j.natAbs).data := by
      rw [← h]
      simp
    exact natStr_no_minus _ hmem
  · exfalso
    have hmem : '-' ∈ (natStr i.natAbs).data := by
      rw [h]
      simp
    exact natStr_no_minus _ hmem
  · have := natStr_data_inj h
    omega

/-- Data-level injectivity of the boolean renderer. -/
theorem boolStr_data_inj {a b : Bool} (h : (boolStr a).data = (boolStr b).data) : a = b := by
  revert h
  cases a <;> cases b <;> decide

/-- Splitting an underscore-joined character list is unique when the left
parts are underscore-free. -/
theorem append_underscore_inj :
    ∀ (a b c d : List Char), '_' ∉ a → '_' ∉ c →
      a ++ '_' :: b = c ++ '_' :: d → a = c ∧ b = d := by
  intro a
  induction a with
  | nil =>
    intro b c d _ hc h
    cases c with
    | nil => simpa using h
    | cons y ys =>
      simp only [List.nil_append, List.cons_append, List.cons.injEq] at h
      exact absurd (by rw [← h.1]; exact List.mem_cons_self _ _ : '_' ∈ y :: ys) hc
  | cons x xs ih =>
    intro b c d ha hc h
    cases c with
    | nil =>
      simp only [List.nil_append, List.cons_append, List.cons.injEq] at h
      exact absurd (by rw [h.1]; exact List.mem_cons_self _ _ : '_' ∈ x :: xs) ha
    | cons y ys =>
      simp only [List.cons_append, List.cons.injEq] at h
      obtain ⟨hxy, hrest⟩ := h
      have hr := ih b ys d (fun hm => ha (List.mem_cons_of_mem _ hm))
        (fun hm => hc (List.mem_cons_of_mem _ hm)) hrest
      exact ⟨by rw [hxy, hr.1], hr.2⟩

/-- Different quote parameters produce different cache keys, provided the mint
strings contain no underscore (the key is underscore-joined). -/
theorem cacheKey_inj (p p2 : QuoteParams)
    (h1 : '_' ∉ p.inputMint.data) (h2 : '_' ∉ p.outputMint.data)
    (h1' : '_' ∉ p2.inputMint.data) (h2' : '_' ∉ p2.outputMint.data)
    (hk : cacheKey p = cacheKey p2) : p = p2 := by
  have hd := congrArg String.data hk
  unfold cacheKey at hd
  simp only [String.data_append, List.append_assoc] at hd
  simp only [List.cons_append, List.nil_append, List.singleton_append,
    List.cons.injEq, true_and] at hd
  obtain ⟨hin, hd⟩ := append_underscore_inj _ _ _ _ h1 h1' hd
  obtain ⟨hout, hd⟩ := append_underscore_inj _ _ _ _ h2 h2' hd
  obtain ⟨hamt, hd⟩ := append_underscore_inj _ _ _ _ (natStr_no_underscore _)
    (natStr_no_underscore _) hd
  obtain ⟨hslp, hbool⟩ := append_underscore_inj _ _ _ _ (intStr_no_underscore _)
    (intStr_no_underscore _) hd
  obtain ⟨⟨ind⟩, ⟨outd⟩, amt, slp, odr⟩ := p
  obtain ⟨⟨ind2⟩, ⟨outd2⟩, amt2, slp2, odr2⟩ := p2
  simp only at hin hout hamt hslp hbool
  have e1 : ind = ind2 := hin
  have e2 : outd = outd2 := hout
  have e3 : amt = amt2 := natStr_data_inj hamt
  have e4 : slp = slp2 := intStr_data_inj hslp
  have e5 : odr = odr2 := boolStr_data_inj hbool
  subst e1 e2 e3 e4 e5
  rfl

/-- At least one attempt is issued whenever the loop runs with a positive
window. -/
theorem quoteRetryLoop_count_pos (world : ℕ → QuoteAttempt) (remaining attempt : ℕ)
    (h : 0 < remaining) : 0 < (quoteRetryLoop world attempt remaining).2.2.1 := by
  rcases remaining with _ | r
  · omega
  · unfold quoteRetryLoop
    cases hw : world attempt with
    | ok q => simp
    | error e =>
      simp only
      split <;> simp

/-- On a cache miss, `getQuote` reports as many HTTP attempts as the retry
loop made. -/
theorem getQuote_attempts_pos (cfg : QuoteServiceConfig) (cache : QuoteCache) (now : ℕ)
    (p : QuoteParams) (world : ℕ → QuoteAttempt) (hr : 0 < cfg.retries)
    (hmiss : (match cacheLookup cache (cacheKey p) with
      | some entry => now - entry.timestamp < cfg.cacheTimeout
      | none => False)  = False) :
    0 < (QuoteService.getQuote cfg cache now p world).httpAttempts := by
  have hpos := quoteRetryLoop_count_pos world cfg.retries 0 hr
  unfold QuoteService.getQuote
  rcases hl : cacheLookup cache (cacheKey p) with _ | entry
  · simp only [hl]
    rcases hq : quoteRetryLoop world 0 cfg.retries with ⟨q1, e1, n1, ds1⟩
    rw [hq] at hpos
    rcases q1 with _ | qv
    · simpa using hpos
    · simp only
      split <;> simpa using hpos
  · rw [hl] at hmiss
    simp only [hl]
    have hstale : ¬(now - entry.timestamp < cfg.cacheTimeout) := by
      simp at hmiss
      omega
    simp only [hstale, if_false]
    rcases hq : quoteRetryLoop world 0 cfg.retries with ⟨q1, e1, n1, ds1⟩
    rw [hq] at hpos
    rcases q1 with _ | qv
    · simpa using hpos
    · simp only
      split <;> simpa using hpos

/-- C10 (amended): a successful first call stores the enhanced quote under its
cache key; a second call within `cacheTimeout` that produces the *same key*
returns the stored enhanced quote with no HTTP request and leaves the cache
unchanged; a second call after the timeout, or with a different cache key,
fetches again; and for underscore-free mint strings (as all real base58 mints
are) different parameter tuples always produce different keys. -/
theorem getQuote_cache_behaviour (cfg : QuoteServiceConfig) (p p2 : QuoteParams)
    (t0 t1 : ℕ) (world world2 : ℕ → QuoteAttempt) (q : QuoteResp)
    (hr : 0 < cfg.retries) (hw : world 0 = .ok q)
    (ht : truthyOptStr q.outAmount = true) :
    QuoteService.getQuote cfg [] t0 p world =
        ⟨.ok (enhanceQuote cfg.slippageConfig q p t0),
          [(cacheKey p, ⟨enhanceQuote cfg.slippageConfig q p t0, t0⟩)], 1, []⟩ ∧
      (t1 - t0 < cfg.cacheTimeout →
        QuoteService.getQuote cfg [(cacheKey p, ⟨enhanceQuote cfg.slippageConfig q p t0, t0⟩)]
            t1 p world2 =
          ⟨.ok (enhanceQuote cfg.slippageConfig q p t0),
            [(cacheKey p, ⟨enhanceQuote cfg.slippageConfig q p t0, t0⟩)], 0, []⟩) ∧
      (cfg.cacheTimeout ≤ t1 - t0 →
        0 < (QuoteService.getQuote cfg
            [(cacheKey p, ⟨enhanceQuote cfg.slippageConfig q p t0, t0⟩)]
            t1 p world2).httpAttempts) ∧
      (cacheKey p2 ≠ cacheKey p →
        0 < (QuoteService.getQuote cfg
            [(cacheKey p, ⟨enhanceQuote cfg.slippageConfig q p t0, t0⟩)]
            t1 p2 world2).httpAttempts) ∧
      ('_' ∉ p.inputMint.data → '_' ∉ p.outputMint.data → '_' ∉ p2.inputMint.data →
        '_' ∉ p2.outputMint.data → p2 ≠ p → cacheKey p2 ≠ cacheKey p) := by
  have hloop : quoteRetryLoop world 0 cfg.retries = (some q, none, 1, []) := by
    rcases hc : cfg.retries with _ | r
    · omega
    · unfold quoteRetryLoop
      rw [hw]
  refine ⟨?_, ?_, ?_, ?_, ?_⟩
  · unfold QuoteService.getQuote
    simp only [cacheLookup, List.find?_nil, Option.map_none', hloop, ht]
    simp [cacheSet]
  · intro hfresh
    unfold QuoteService.getQuote
    simp [cacheLookup, hfresh]
  · intro hstale
    refine getQuote_attempts_pos cfg _ t1 p world2 hr ?_
    simp [cacheLookup]
    omega
  · intro hkne
    refine getQuote_attempts_pos cfg _ t1 p2 world2 hr ?_
    have hkne2 : cacheKey p ≠ cacheKey p2 := Ne.symm hkne
    simp [cacheLookup, hkne2]
  · intro hu1 hu2 hu3 hu4 hne hkeq
    exact hne (cacheKey_inj p2 p hu3 hu4 hu1 hu2 hkeq)

/-- A world in which every HTTP attempt succeeds with `q0wit`. -/
def okWorld : ℕ → QuoteAttempt := fun _ => .ok q0wit

/-- Parameters whose `inputMint` contains an underscore. -/
def pA : QuoteParams := ⟨"a_b", "c", 1, 1, false⟩

/-- Different parameters that produce the same underscore-joined cache key. -/
def pB : QuoteParams := ⟨"a", "b_c", 1, 1, false⟩

set_option maxRecDepth 4000 in
/-- C10 counterexample: `pA ≠ pB` yet their cache keys collide, so a second
call with the changed parameters (within the timeout) returns the cached
enhanced quote of the first call and issues no HTTP request — the claim's
"changing any of those five parameters bypasses the cache" fails. -/
theorem getQuote_cache_collision_counterexample :
    pA ≠ pB ∧ cacheKey pA = cacheKey pB ∧
      (QuoteService.getQuote defaultQuoteServiceConfig
          (QuoteService.getQuote defaultQuoteServiceConfig [] 0 pA okWorld).cache
          1000 pB allFailWorld).result =
        .ok (enhanceQuote defaultSlippageConfig q0wit pA 0) ∧
      (QuoteService.getQuote defaultQuoteServiceConfig
          (QuoteService.getQuote defaultQuoteServiceConfig [] 0 pA okWorld).cache
          1000 pB allFailWorld).httpAttempts = 0 := by
  decide

set_option maxRecDepth 4000 in
/-- Witness for the amended C10: a same-key call within the timeout is served
from the cache with zero HTTP attempts. -/
theorem getQuote_cache_behaviour_witness :
    QuoteService.getQuote defaultQuoteServiceConfig
        [(cacheKey params0, ⟨enhanceQuote defaultSlippageConfig q0wit params0 0, 0⟩)]
        1000 params0 allFailWorld =
      ⟨.ok (enhanceQuote defaultSlippageConfig q0wit params0 0),
        [(cacheKey params0, ⟨enhanceQuote defaultSlippageConfig q0wit params0 0, 0⟩)], 0, []⟩ :=
  (getQuote_cache_behaviour defaultQuoteServiceConfig params0 params0 0 1000 okWorld
      allFailWorld q0wit (by decide) rfl (by decide)).2.1 (by decide)
